import Mathlib

/-
  Verification development for the GiveGo coin / escrow / inventory core.

  The definitions below are a shallow embedding of the repository's
  business logic:

  * geometry utilities (server/utils/distance.ts): haversine distance and
    annulus point generation, modelled over the real numbers, with the two
    Math.random() samples passed explicitly as oracle arguments;
  * the storage layer (DatabaseStorage): the database is modelled as an
    explicit record of row lists, and every storage method becomes a pure
    function on that state.  SQL updates keyed on a column become maps over
    the matching rows; the "fetch first matching row then update it by its
    primary key" pattern of addToInventory / decrementInventory becomes an
    update of the first matching list entry;
  * the route handlers (server/routes.ts) and the expiration job, modelled
    as sequential state transformers.  Generated primary keys, the random
    coin draw and the random placement samples are oracle parameters.
-/

noncomputable section Geometry

/-- Model of the JavaScript Math.atan2 on real numbers: arctan of y/x,
corrected by quadrant.  Only the x > 0 branch is exercised by the haversine
formula, where x is a square root of a nonnegative quantity. -/
def atan2 (y x : ℝ) : ℝ :=
  if 0 < x then Real.arctan (y / x)
  else if x < 0 then
    (if 0 ≤ y then Real.arctan (y / x) + Real.pi else Real.arctan (y / x) - Real.pi)
  else
    (if 0 < y then Real.pi / 2 else if y < 0 then -(Real.pi / 2) else 0)

/-- Haversine great-circle distance in meters on a sphere of radius
6371e3 m, transcribed from calculateDistance in server/utils/distance.ts. -/
def calculateDistance (lat1 lon1 lat2 lon2 : ℝ) : ℝ :=
  let R : ℝ := 6371e3
  let p1 := lat1 * Real.pi / 180
  let p2 := lat2 * Real.pi / 180
  let dp := (lat2 - lat1) * Real.pi / 180
  let dl := (lon2 - lon1) * Real.pi / 180
  let a := Real.sin (dp / 2) * Real.sin (dp / 2) +
    Real.cos p1 * Real.cos p2 * Real.sin (dl / 2) * Real.sin (dl / 2)
  let c := 2 * atan2 (Real.sqrt a) (Real.sqrt (1 - a))
  R * c

/-- Random point in an annulus, transcribed from generateRandomPointInRadius
in server/utils/distance.ts.  The two Math.random() samples are passed in as
u1 and u2 (each drawn from [0,1) at runtime). -/
def generateRandomPointInRadius (centerLat centerLon minRadiusKm maxRadiusKm u1 u2 : ℝ) :
    ℝ × ℝ :=
  let radiusKm := minRadiusKm + u1 * (maxRadiusKm - minRadiusKm)
  let radiusDeg := radiusKm / 111
  let angle := u2 * (2 * Real.pi)
  (centerLat + radiusDeg * Real.cos angle,
   centerLon + radiusDeg * Real.sin angle / Real.cos (centerLat * Real.pi / 180))

end Geometry

section DataModel

/-- Coin lifecycle status (coin_status enum in shared/schema.ts). -/
inductive CoinStatus
  | available
  | placed
  | collected
  | expired
deriving DecidableEq, Repr

/-- Escrow hold status (escrow_status enum). -/
inductive EscrowStatus
  | held
  | released
  | refunded
deriving DecidableEq, Repr

/-- Player session status (session_status enum). -/
inductive SessionStatus
  | active
  | completed
  | abandoned
deriving DecidableEq, Repr

/-- Row of player_profiles. -/
structure PlayerProfileRow where
  id : String
  userId : String
  username : String
  totalCoinsCollected : ℤ
  totalDonated : ℤ
deriving DecidableEq, Repr

/-- Row of sponsor_profiles. -/
structure SponsorProfileRow where
  id : String
  userId : String
  totalCoinsPurchased : ℤ
  totalCoinsPlaced : ℤ
  totalDonated : ℤ
deriving DecidableEq, Repr

/-- Row of coin_inventory: quantity of one denomination held by a sponsor.
The generated primary key is omitted; the code only uses it to update the
first row matching (sponsorId, coinValue), which is modelled directly. -/
structure CoinInventoryEntry where
  sponsorId : String
  coinValue : ℤ
  quantity : ℤ
deriving DecidableEq, Repr

/-- Row of generated_coins.  Coordinates are real numbers; timestamps are
integers (milliseconds). -/
structure GeneratedCoin where
  id : String
  sponsorId : String
  sessionId : Option String
  coinValue : ℤ
  latitude : ℝ
  longitude : ℝ
  status : CoinStatus
  expiresAt : ℤ
  collectedAt : Option ℤ
  collectedBy : Option String

/-- Row of player_sessions. -/
structure SessionRow where
  id : String
  playerId : String
  status : SessionStatus
  startLatitude : ℝ
  startLongitude : ℝ
  coinsCollected : ℤ
  totalValue : ℤ
  endedAt : Option ℤ

/-- Row of escrow.  The generated primary key is omitted: every access in
the code is keyed on coinId. -/
structure EscrowRow where
  coinId : String
  sponsorId : String
  amount : ℤ
  status : EscrowStatus
  releasedAt : Option ℤ
deriving DecidableEq, Repr

/-- Row of collection_history (append-only audit log). -/
structure CollectionHistoryRow where
  playerId : String
  coinId : String
  sessionId : String
  coinValue : ℤ
  collectedAt : ℤ
deriving DecidableEq, Repr

/-- The shared persistent ledger: all tables touched by the core, plus the
in-memory webhook idempotency cache (insertion-ordered, as a JS Set is). -/
structure State where
  playerProfiles : List PlayerProfileRow
  sponsorProfiles : List SponsorProfileRow
  inventory : List CoinInventoryEntry
  coins : List GeneratedCoin
  sessions : List SessionRow
  escrows : List EscrowRow
  history : List CollectionHistoryRow
  processedEvents : List String

end DataModel

section Storage

/-- Update the first list element satisfying p (the code fetches the first
matching row and then updates it by its primary key). -/
def updateFirst (p : α → Bool) (f : α → α) : List α → List α
  | [] => []
  | a :: as => if p a then f a :: as else a :: updateFirst p f as

/-- DatabaseStorage.getPlayerProfile: first player profile with the user id. -/
def getPlayerProfile (st : State) (userId : String) : Option PlayerProfileRow :=
  st.playerProfiles.find? (fun p => decide (p.userId = userId))

/-- DatabaseStorage.getSponsorProfile. -/
def getSponsorProfile (st : State) (userId : String) : Option SponsorProfileRow :=
  st.sponsorProfiles.find? (fun p => decide (p.userId = userId))

/-- DatabaseStorage.getSponsorProfileById. -/
def getSponsorProfileById (st : State) (id : String) : Option SponsorProfileRow :=
  st.sponsorProfiles.find? (fun p => decide (p.id = id))

/-- DatabaseStorage.updatePlayerStats: add to the counters of every player
profile whose user_id matches (unique in the schema). -/
def updatePlayerStats (st : State) (userId : String) (coinsCollected donated : ℤ) : State :=
  { st with playerProfiles := st.playerProfiles.map fun p =>
      if p.userId = userId then
        { p with totalCoinsCollected := p.totalCoinsCollected + coinsCollected,
                 totalDonated := p.totalDonated + donated }
      else p }

/-- DatabaseStorage.updateSponsorStats: add to the counters of every sponsor
profile whose user_id column matches the argument. -/
def updateSponsorStats (st : State) (userId : String) (coinsPlaced donated : ℤ) : State :=
  { st with sponsorProfiles := st.sponsorProfiles.map fun p =>
      if p.userId = userId then
        { p with totalCoinsPlaced := p.totalCoinsPlaced + coinsPlaced,
                 totalDonated := p.totalDonated + donated }
      else p }

/-- DatabaseStorage.updateSponsorPurchasedCount. -/
def updateSponsorPurchasedCount (st : State) (userId : String) (quantity : ℤ) : State :=
  { st with sponsorProfiles := st.sponsorProfiles.map fun p =>
      if p.userId = userId then
        { p with totalCoinsPurchased := p.totalCoinsPurchased + quantity }
      else p }

/-- Inventory key match for a (sponsorId, coinValue) pair. -/
def invKey (sponsorId : String) (coinValue : ℤ) (e : CoinInventoryEntry) : Bool :=
  decide (e.sponsorId = sponsorId ∧ e.coinValue = coinValue)

/-- DatabaseStorage.addToInventory: bump the first matching row, or insert a
new row when none exists. -/
def addToInventory (st : State) (sponsorId : String) (coinValue quantity : ℤ) : State :=
  match st.inventory.find? (invKey sponsorId coinValue) with
  | some _ =>
      let inv := updateFirst (invKey sponsorId coinValue)
        (fun e => { e with quantity := e.quantity + quantity }) st.inventory
      { st with inventory := inv }
  | none =>
      { st with inventory := st.inventory ++ [⟨sponsorId, coinValue, quantity⟩] }

/-- DatabaseStorage.decrementInventory: fail (returning false, no mutation)
when no row matches or the stored quantity is below the requested one;
otherwise decrement the matching row and return true. -/
def decrementInventory (st : State) (sponsorId : String) (coinValue quantity : ℤ) :
    State × Bool :=
  match st.inventory.find? (invKey sponsorId coinValue) with
  | none => (st, false)
  | some e =>
      if e.quantity < quantity then (st, false)
      else
        let inv := updateFirst (invKey sponsorId coinValue)
          (fun x => { x with quantity := x.quantity - quantity }) st.inventory
        ({ st with inventory := inv }, true)

/-- DatabaseStorage.getGeneratedCoin. -/
def getGeneratedCoin (st : State) (id : String) : Option GeneratedCoin :=
  st.coins.find? (fun c => decide (c.id = id))

/-- DatabaseStorage.createGeneratedCoin: insert a new coin row (the caller
supplies the row, the generated uuid included). -/
def createGeneratedCoin (st : State) (coin : GeneratedCoin) : State :=
  { st with coins := st.coins ++ [coin] }

/-- DatabaseStorage.getActiveCoinsForSession: coins of the session that are
still in status placed. -/
def getActiveCoinsForSession (st : State) (sessionId : String) : List GeneratedCoin :=
  st.coins.filter (fun c => decide (c.sessionId = some sessionId ∧ c.status = .placed))

/-- DatabaseStorage.updateCoinStatus: set the status of every coin whose id
matches, with no precondition on the current status.  When the new status is
collected, collectedAt is stamped and collectedBy recorded when supplied. -/
def updateCoinStatus (st : State) (id : String) (status : CoinStatus)
    (collectedBy : Option String) (now : ℤ) : State :=
  { st with coins := st.coins.map fun c =>
      if c.id = id then
        if status = .collected then
          { c with status := status, collectedAt := some now,
                   collectedBy := match collectedBy with
                     | some pid => some pid
                     | none => c.collectedBy }
        else { c with status := status }
      else c }

/-- DatabaseStorage.getExpiredCoins: placed coins with expiresAt less than
or equal to the current time. -/
def getExpiredCoins (st : State) (now : ℤ) : List GeneratedCoin :=
  st.coins.filter (fun c => decide (c.status = .placed ∧ c.expiresAt ≤ now))

/-- One unit of the random draw: an owner and a denomination. -/
structure DrawUnit where
  sponsorId : String
  coinValue : ℤ
deriving DecidableEq, Repr

/-- DatabaseStorage.getRandomAvailableCoinsFromInventory: flatten the
positive-quantity inventory rows into individual units, cap the pool at
2*count units, shuffle (the comparator calls Math.random(), so the shuffle
is an oracle parameter), and take the first count units.  The inventory is
not mutated. -/
def getRandomAvailableCoinsFromInventory (st : State) (count : ℕ)
    (shuffle : List DrawUnit → List DrawUnit) : List DrawUnit :=
  let inv := st.inventory.filter (fun e => decide (0 < e.quantity))
  if inv.isEmpty then []
  else
    let pool := (inv.flatMap fun e =>
      List.replicate e.quantity.toNat ⟨e.sponsorId, e.coinValue⟩).take (2 * count)
    ((shuffle pool).take count)

/-- DatabaseStorage.getActiveSession: first session of the player in status
active. -/
def getActiveSession (st : State) (playerId : String) : Option SessionRow :=
  st.sessions.find? (fun s => decide (s.playerId = playerId ∧ s.status = .active))

/-- DatabaseStorage.createSession. -/
def createSession (st : State) (session : SessionRow) : State :=
  { st with sessions := st.sessions ++ [session] }

/-- DatabaseStorage.updateSession restricted to the two fields the collect
route patches: coinsCollected and totalValue. -/
def updateSessionCounts (st : State) (id : String) (coinsCollected totalValue : ℤ) : State :=
  { st with sessions := st.sessions.map fun s =>
      if s.id = id then { s with coinsCollected := coinsCollected, totalValue := totalValue }
      else s }

/-- DatabaseStorage.endSession: set the terminal status and endedAt of every
session whose id matches. -/
def endSession (st : State) (id : String) (status : SessionStatus) (now : ℤ) : State :=
  { st with sessions := st.sessions.map fun s =>
      if s.id = id then { s with status := status, endedAt := some now } else s }

/-- DatabaseStorage.createEscrow. -/
def createEscrow (st : State) (row : EscrowRow) : State :=
  { st with escrows := st.escrows ++ [row] }

/-- DatabaseStorage.releaseEscrow: set every escrow row of the coin to
released and stamp releasedAt, with no precondition on the current status. -/
def releaseEscrow (st : State) (coinId : String) (now : ℤ) : State :=
  { st with escrows := st.escrows.map fun e =>
      if e.coinId = coinId then { e with status := .released, releasedAt := some now }
      else e }

/-- DatabaseStorage.refundEscrow: set every escrow row of the coin to
refunded and stamp releasedAt, with no precondition on the current status. -/
def refundEscrow (st : State) (coinId : String) (now : ℤ) : State :=
  { st with escrows := st.escrows.map fun e =>
      if e.coinId = coinId then { e with status := .refunded, releasedAt := some now }
      else e }

/-- DatabaseStorage.addCollectionHistory. -/
def addCollectionHistory (st : State) (row : CollectionHistoryRow) : State :=
  { st with history := st.history ++ [row] }

end Storage

section Routes

/-- Collection radius from routes.ts (COLLECTION_RADIUS_METERS). -/
def COLLECTION_RADIUS_METERS : ℝ := 10

/-- Coin time-to-live from routes.ts (COIN_TTL_MINUTES), in minutes. -/
def COIN_TTL_MINUTES : ℤ := 30

/-- The three-part reversal of an uncollected coin, as written identically
in the expiration job, in the session-end route and in the lazy-expiry
branch of the collect route: mark the coin expired, credit one unit back to
the sponsor inventory, refund the escrow. -/
def expireCoinStep (st : State) (coin : GeneratedCoin) (now : ℤ) : State :=
  let st := updateCoinStatus st coin.id .expired none now
  let st := addToInventory st coin.sponsorId coin.coinValue 1
  refundEscrow st coin.id now

/-- One tick of the background expiration job (runExpirationCheck in the
coin expiration module): fetch the overdue placed coins, then apply the
three-part reversal to each. -/
def runExpirationCheck (st : State) (now : ℤ) : State :=
  (getExpiredCoins st now).foldl (fun st coin => expireCoinStep st coin now) st

/-- Outcome of POST /api/player/coin/collect. -/
inductive CollectResult
  | profileNotFound
  | noActiveSession
  | coinNotFound
  | coinUnavailable
  | wrongSession
  | tooFar
  | coinExpired
  | collected (coinValue : ℤ)

open Classical

/-- POST /api/player/coin/collect, as a sequential state transformer.  The
guards run in source order: profile, active session, coin lookup, status,
session ownership, distance, expiry; the success branch then applies the
seven mutations in source order. -/
noncomputable def collectCoin (st : State) (userId coinId : String) (lat lon : ℝ)
    (now : ℤ) : State × CollectResult :=
  match getPlayerProfile st userId with
  | none => (st, .profileNotFound)
  | some profile =>
    match getActiveSession st profile.id with
    | none => (st, .noActiveSession)
    | some session =>
      match getGeneratedCoin st coinId with
      | none => (st, .coinNotFound)
      | some coin =>
        if coin.status ≠ CoinStatus.placed then (st, .coinUnavailable)
        else if coin.sessionId ≠ some session.id then (st, .wrongSession)
        else if COLLECTION_RADIUS_METERS <
            calculateDistance lat lon coin.latitude coin.longitude then
          (st, .tooFar)
        else if coin.expiresAt < now then
          (expireCoinStep st coin now, .coinExpired)
        else
          let st := updateCoinStatus st coin.id .collected (some profile.id) now
          let st := releaseEscrow st coin.id now
          let st := updatePlayerStats st userId 1 coin.coinValue
          let st := updateSponsorStats st coin.sponsorId 0 coin.coinValue
          let st := updateSessionCounts st session.id
            (session.coinsCollected + 1) (session.totalValue + coin.coinValue)
          let st := addCollectionHistory st
            ⟨profile.id, coin.id, session.id, coin.coinValue, now⟩
          (st, .collected coin.coinValue)

/-- Outcome of POST /api/player/session/start. -/
inductive StartResult
  | profileNotFound
  | alreadyActive
  | noCoinsAvailable
  | started (sessionId : String) (coins : List GeneratedCoin)

/-- Body of the placement loop in POST /api/player/session/start, for one
drawn unit (indexed so that the oracle functions can supply the generated
coin id and the two random placement samples): generate a location, attempt
the inventory debit, and on success create the placed coin and open its
escrow hold; on a failed debit the unit is silently skipped. -/
noncomputable def placeUnit (lat lon : ℝ) (sid : String) (expiresAt : ℤ)
    (coinIdF : ℕ → String) (randF : ℕ → ℝ × ℝ) (st : State) (iu : ℕ × DrawUnit) : State :=
  let loc := generateRandomPointInRadius lat lon 1 2 (randF iu.1).1 (randF iu.1).2
  match decrementInventory st iu.2.sponsorId iu.2.coinValue 1 with
  | (st, false) => st
  | (st, true) =>
    let coin : GeneratedCoin :=
      ⟨coinIdF iu.1, iu.2.sponsorId, some sid, iu.2.coinValue,
        loc.1, loc.2, .placed, expiresAt, none, none⟩
    let st := createGeneratedCoin st coin
    createEscrow st ⟨coin.id, iu.2.sponsorId, iu.2.coinValue, .held, none⟩

/-- POST /api/player/session/start from the point where the random draw has
been read (units is the draw result).  The route awaits between the draw
and each debit, so the inventory seen by the loop can differ from the
inventory the draw was computed from; this function takes the drawn units
as an argument to model that window.  Note the session row is created
before the placement loop runs. -/
noncomputable def sessionStartPlace (st : State) (userId : String) (lat lon : ℝ)
    (units : List DrawUnit) (sid : String) (coinIdF : ℕ → String)
    (randF : ℕ → ℝ × ℝ) (now : ℤ) : State × StartResult :=
  match getPlayerProfile st userId with
  | none => (st, .profileNotFound)
  | some profile =>
    match getActiveSession st profile.id with
    | some _ => (st, .alreadyActive)
    | none =>
      if units.isEmpty then (st, .noCoinsAvailable)
      else
        let session : SessionRow := ⟨sid, profile.id, .active, lat, lon, 0, 0, none⟩
        let st := createSession st session
        let expiresAt := now + COIN_TTL_MINUTES * 60 * 1000
        let st := units.enum.foldl (placeUnit lat lon sid expiresAt coinIdF randF) st
        (st, .started sid (getActiveCoinsForSession st sid))

/-- POST /api/player/session/start in full: the drawn units are the result
of getRandomAvailableCoinsFromInventory on the same state (the
interference-free sequential execution). -/
noncomputable def sessionStart (st : State) (userId : String) (lat lon : ℝ)
    (count : ℕ) (shuffle : List DrawUnit → List DrawUnit) (sid : String)
    (coinIdF : ℕ → String) (randF : ℕ → ℝ × ℝ) (now : ℤ) : State × StartResult :=
  sessionStartPlace st userId lat lon
    (getRandomAvailableCoinsFromInventory st count shuffle) sid coinIdF randF now

/-- Outcome of POST /api/player/session/end. -/
inductive EndResult
  | profileNotFound
  | noActiveSession
  | ended (status : SessionStatus)
deriving DecidableEq, Repr

/-- POST /api/player/session/end: apply the three-part reversal to every
still-placed coin of the active session, then close the session as
completed when at least one coin was collected and abandoned otherwise. -/
def sessionEnd (st : State) (userId : String) (now : ℤ) : State × EndResult :=
  match getPlayerProfile st userId with
  | none => (st, .profileNotFound)
  | some profile =>
    match getActiveSession st profile.id with
    | none => (st, .noActiveSession)
    | some session =>
      let remaining := getActiveCoinsForSession st session.id
      let st := remaining.foldl (fun st coin => expireCoinStep st coin now) st
      let status := if 0 < session.coinsCollected
        then SessionStatus.completed else SessionStatus.abandoned
      (endSession st session.id status now, .ended status)

/-- Outcome of GET /api/sponsor/payment-success. -/
inductive PaymentResult
  | profileNotFound
  | credited (quantity coinValue : ℤ)
deriving DecidableEq, Repr

/-- GET /api/sponsor/payment-success: credit the inventory from the query
parameters.  The handler performs no event-id deduplication of any kind. -/
def paymentSuccess (st : State) (userId : String) (coins coinValue : ℤ) :
    State × PaymentResult :=
  match getSponsorProfile st userId with
  | none => (st, .profileNotFound)
  | some profile =>
    (addToInventory st profile.id coinValue coins, .credited coins coinValue)

/-- A parsed Stripe webhook event, reduced to the fields the handler reads
(the checkout metadata is modelled as present and well formed). -/
structure WebhookEvent where
  id : String
  type : String
  sponsorId : String
  coinValue : ℤ
  quantity : ℤ
deriving DecidableEq, Repr

/-- WebhookHandlers.handleCheckoutCompleted: credit the sponsor inventory
and bump the purchased counter (converting the profile id to the user id). -/
def handleCheckoutCompleted (st : State) (ev : WebhookEvent) : State :=
  let st := addToInventory st ev.sponsorId ev.coinValue ev.quantity
  match getSponsorProfileById st ev.sponsorId with
  | some profile => updateSponsorPurchasedCount st profile.userId ev.quantity
  | none => st

/-- WebhookHandlers.processWebhook: skip events whose id is already in the
in-memory processed set, otherwise handle checkout completions, record the
event id, and evict the oldest recorded id beyond a cap of 1000. -/
def processWebhook (st : State) (ev : WebhookEvent) : State :=
  if ev.id ∈ st.processedEvents then st
  else
    let st := if ev.type = "checkout.session.completed"
      then handleCheckoutCompleted st ev else st
    let pe := st.processedEvents ++ [ev.id]
    let pe := if 1000 < pe.length then pe.drop 1 else pe
    { st with processedEvents := pe }

end Routes

section Derived

/-- Total stored inventory quantity for one (sponsor, denomination) pair. -/
def invQty (st : State) (sponsorId : String) (coinValue : ℤ) : ℤ :=
  ((st.inventory.filter (invKey sponsorId coinValue)).map (·.quantity)).sum

/-- Predicate selecting coins of one sponsor, denomination and status. -/
def coinKey (sponsorId : String) (coinValue : ℤ) (status : CoinStatus)
    (c : GeneratedCoin) : Bool :=
  decide (c.sponsorId = sponsorId ∧ c.coinValue = coinValue ∧ c.status = status)

/-- Number of coins of one sponsor and denomination in a given status. -/
def countCoins (st : State) (sponsorId : String) (coinValue : ℤ)
    (status : CoinStatus) : ℕ :=
  st.coins.countP (coinKey sponsorId coinValue status)

/-- The conserved quantity of the value-conservation invariant: stored
inventory plus outstanding placed coins plus collected coins, per sponsor
and denomination. -/
def conservedValue (st : State) (sponsorId : String) (coinValue : ℤ) : ℤ :=
  invQty st sponsorId coinValue
    + countCoins st sponsorId coinValue .placed
    + countCoins st sponsorId coinValue .collected

end Derived

section InvOps

/-- One inventory-ledger operation, for stating properties of arbitrary
sequences of credits and debits. -/
inductive InvOp
  | credit (sponsorId : String) (coinValue quantity : ℤ)
  | debit (sponsorId : String) (coinValue quantity : ℤ)
deriving DecidableEq, Repr

/-- Apply one inventory operation through the storage layer. -/
def applyInvOp (st : State) : InvOp → State
  | .credit s v q => addToInventory st s v q
  | .debit s v q => (decrementInventory st s v q).1

/-- Apply a sequence of inventory operations in order. -/
def applyInvOps (st : State) (ops : List InvOp) : State :=
  ops.foldl applyInvOp st

end InvOps

section Fixtures

/-- Concrete player profile used to evaluate theorems on explicit inputs. -/
def playerW : PlayerProfileRow := ⟨"pp", "pu", "alice", 0, 0⟩

/-- Concrete sponsor profile (profile id "sp", auth user id "su"). -/
def sponsorW : SponsorProfileRow := ⟨"sp", "su", 0, 0, 0⟩

/-- Active session of playerW at the origin with nothing collected yet. -/
def sessionW : SessionRow := ⟨"sess1", "pp", .active, 0, 0, 0, 0, none⟩

/-- Placed coin of sponsorW in sessionW at the origin, expiring at t = 100. -/
def coinW : GeneratedCoin := ⟨"c1", "sp", some "sess1", 100, 0, 0, .placed, 100, none, none⟩

/-- Held escrow for coinW. -/
def escrowW : EscrowRow := ⟨"c1", "sp", 100, .held, none⟩

/-- Well-formed mid-session state: one sponsor with inventory, one player
with an active session holding one placed, escrowed coin at the origin. -/
def stW : State := ⟨[playerW], [sponsorW], [⟨"sp", 100, 7⟩], [coinW], [sessionW], [escrowW], [], []⟩

/-- coinW after a successful collection at t = 50. -/
def coinCollectedW : GeneratedCoin := { coinW with status := .collected, collectedAt := some 50, collectedBy := some "pp" }

/-- stW after the coin has been collected: probes terminal-state behavior. -/
def stTerminalW : State := { stW with coins := [coinCollectedW], escrows := [{ escrowW with status := .released, releasedAt := some 50 }] }

/-- An escrow hold already in the refunded terminal state. -/
def escrowRefundedW : EscrowRow := ⟨"c1", "sp", 100, .refunded, some 40⟩

/-- State holding only the refunded escrow row. -/
def stRefundW : State := ⟨[], [], [], [], [], [escrowRefundedW], [], []⟩

/-- Player present but inventory empty: the placement-loop state of a
session start whose drawn unit was debited away concurrently. -/
def stEmptyInvW : State := ⟨[playerW], [sponsorW], [], [], [], [], [], []⟩

/-- State with a sponsor profile and empty inventory. -/
def stSponsorW : State := ⟨[], [sponsorW], [], [], [], [], [], []⟩

/-- A completed-checkout webhook event for sponsorW. -/
def evW : WebhookEvent := ⟨"evt1", "checkout.session.completed", "sp", 100, 5⟩

/-- stSponsorW with the id of evW already recorded as processed. -/
def stDupW : State := { stSponsorW with processedEvents := ["evt1"] }

end Fixtures

section HelperLemmas

@[simp] theorem updateFirst_nil (p : α → Bool) (f : α → α) :
    updateFirst p f [] = [] := rfl

@[simp] theorem updateFirst_cons (p : α → Bool) (f : α → α) (a : α) (as : List α) :
    updateFirst p f (a :: as) = if p a then f a :: as else a :: updateFirst p f as := rfl

theorem updateFirst_mem {p : α → Bool} {f : α → α} {l : List α} {x : α}
    (hx : x ∈ updateFirst p f l) :
    x ∈ l ∨ ∃ a, l.find? p = some a ∧ x = f a := by
  induction l with
  | nil => simp at hx
  | cons a as ih =>
    by_cases ha : p a
    · rw [updateFirst_cons, if_pos ha] at hx
      rcases List.mem_cons.mp hx with h | h
      · exact Or.inr ⟨a, by simp [List.find?_cons, ha], h⟩
      · exact Or.inl (List.mem_cons_of_mem a h)
    · rw [updateFirst_cons, if_neg ha] at hx
      rcases List.mem_cons.mp hx with h | h
      · exact Or.inl (by simp [h])
      · rcases ih h with h2 | ⟨b, hb, hxb⟩
        · exact Or.inl (List.mem_cons_of_mem a h2)
        · refine Or.inr ⟨b, ?_, hxb⟩
          simpa [List.find?_cons, ha] using hb

theorem sum_quantity_updateFirst (sp : String) (v : ℤ) (s : String) (w d : ℤ)
    (l : List CoinInventoryEntry) (hfind : (l.find? (invKey sp v)).isSome) :
    (((updateFirst (invKey sp v)
        (fun e => { e with quantity := e.quantity + d }) l).filter
          (invKey s w)).map (·.quantity)).sum
      = ((l.filter (invKey s w)).map (·.quantity)).sum
        + (if sp = s ∧ v = w then d else 0) := by
  induction l with
  | nil => simp at hfind
  | cons a as ih =>
    by_cases ha : invKey sp v a
    · rw [updateFirst_cons, if_pos ha]
      have hsame : invKey s w ({ a with quantity := a.quantity + d } :
          CoinInventoryEntry) = invKey s w a := by
        simp [invKey]
      by_cases haw : invKey s w a
      · have hkey : sp = s ∧ v = w := by
          simp only [invKey, decide_eq_true_eq] at ha haw
          exact ⟨ha.1.symm.trans haw.1, ha.2.symm.trans haw.2⟩
        simp only [List.filter_cons, hsame, haw, if_true, List.map_cons,
          List.sum_cons, if_pos hkey]
        ring
      · have hkey : ¬(sp = s ∧ v = w) := by
          rintro ⟨rfl, rfl⟩
          simp only [invKey, decide_eq_true_eq] at ha haw
          exact haw ha
        simp only [List.filter_cons, hsame]
        simp only [haw, Bool.false_eq_true, if_false, if_neg hkey, add_zero]
    · have hfind2 : (as.find? (invKey sp v)).isSome := by
        simpa [List.find?_cons, ha] using hfind
      rw [updateFirst_cons, if_neg ha]
      by_cases haw : invKey s w a
      · simp only [List.filter_cons, haw, if_true, List.map_cons, List.sum_cons,
          ih hfind2]
        ring
      · simp only [List.filter_cons, haw, Bool.false_eq_true, if_false]
        exact ih hfind2

theorem invQty_addToInventory (st : State) (sp : String) (v q : ℤ)
    (s : String) (w : ℤ) :
    invQty (addToInventory st sp v q) s w
      = invQty st s w + (if sp = s ∧ v = w then q else 0) := by
  unfold addToInventory
  rcases hfind : st.inventory.find? (invKey sp v) with _ | e
  · simp only [invQty, List.filter_append]
    by_cases hkey : sp = s ∧ v = w
    · have hk : invKey s w (⟨sp, v, q⟩ : CoinInventoryEntry) = true := by
        simp [invKey, hkey.1, hkey.2]
      simp [hk, if_pos hkey]
    · have hk : invKey s w (⟨sp, v, q⟩ : CoinInventoryEntry) = false := by
        simp only [invKey, decide_eq_false_iff_not]
        exact fun hc => hkey ⟨hc.1, hc.2⟩
      simp [hk, if_neg hkey]
  · simp only [invQty]
    exact sum_quantity_updateFirst sp v s w q st.inventory (by simp [hfind])

theorem decrementInventory_false (st : State) (sp : String) (v q : ℤ)
    (h : (decrementInventory st sp v q).2 = false) :
    (decrementInventory st sp v q).1 = st := by
  unfold decrementInventory at h ⊢
  rcases hfind : st.inventory.find? (invKey sp v) with _ | e
  · rfl
  · simp only [hfind] at h ⊢
    by_cases hq : e.quantity < q
    · simp [if_pos hq]
    · simp [if_neg hq] at h

theorem invQty_decrementInventory_true (st : State) (sp : String) (v q : ℤ)
    (s : String) (w : ℤ) (h : (decrementInventory st sp v q).2 = true) :
    invQty (decrementInventory st sp v q).1 s w
      = invQty st s w - (if sp = s ∧ v = w then q else 0) := by
  unfold decrementInventory at h ⊢
  rcases hfind : st.inventory.find? (invKey sp v) with _ | e
  · simp [hfind] at h
  · simp only [hfind] at h ⊢
    by_cases hq : e.quantity < q
    · simp [if_pos hq] at h
    · have hfun : (fun x : CoinInventoryEntry => { x with quantity := x.quantity - q })
          = (fun x : CoinInventoryEntry => { x with quantity := x.quantity + (-q) }) := by
        funext x
        simp [sub_eq_add_neg]
      simp only [if_neg hq, invQty, hfun]
      rw [sum_quantity_updateFirst sp v s w (-q) st.inventory (by simp [hfind])]
      by_cases hkey : sp = s ∧ v = w
      · simp only [if_pos hkey]
        ring
      · simp [if_neg hkey]

end HelperLemmas

section FrameLemmas

@[simp] theorem addToInventory_coins (st : State) (sp : String) (v q : ℤ) :
    (addToInventory st sp v q).coins = st.coins := by
  cases hfind : st.inventory.find? (invKey sp v) <;> simp [addToInventory, hfind]

@[simp] theorem addToInventory_escrows (st : State) (sp : String) (v q : ℤ) :
    (addToInventory st sp v q).escrows = st.escrows := by
  cases hfind : st.inventory.find? (invKey sp v) <;> simp [addToInventory, hfind]

@[simp] theorem addToInventory_sessions (st : State) (sp : String) (v q : ℤ) :
    (addToInventory st sp v q).sessions = st.sessions := by
  cases hfind : st.inventory.find? (invKey sp v) <;> simp [addToInventory, hfind]

@[simp] theorem addToInventory_playerProfiles (st : State) (sp : String) (v q : ℤ) :
    (addToInventory st sp v q).playerProfiles = st.playerProfiles := by
  cases hfind : st.inventory.find? (invKey sp v) <;> simp [addToInventory, hfind]

@[simp] theorem addToInventory_sponsorProfiles (st : State) (sp : String) (v q : ℤ) :
    (addToInventory st sp v q).sponsorProfiles = st.sponsorProfiles := by
  cases hfind : st.inventory.find? (invKey sp v) <;> simp [addToInventory, hfind]

@[simp] theorem addToInventory_history (st : State) (sp : String) (v q : ℤ) :
    (addToInventory st sp v q).history = st.history := by
  cases hfind : st.inventory.find? (invKey sp v) <;> simp [addToInventory, hfind]

@[simp] theorem addToInventory_processedEvents (st : State) (sp : String) (v q : ℤ) :
    (addToInventory st sp v q).processedEvents = st.processedEvents := by
  cases hfind : st.inventory.find? (invKey sp v) <;> simp [addToInventory, hfind]

@[simp] theorem decrementInventory_coins (st : State) (sp : String) (v q : ℤ) :
    (decrementInventory st sp v q).1.coins = st.coins := by
  cases hfind : st.inventory.find? (invKey sp v) <;>
    simp only [decrementInventory, hfind] <;> first | rfl | (split <;> rfl)

@[simp] theorem decrementInventory_escrows (st : State) (sp : String) (v q : ℤ) :
    (decrementInventory st sp v q).1.escrows = st.escrows := by
  cases hfind : st.inventory.find? (invKey sp v) <;>
    simp only [decrementInventory, hfind] <;> first | rfl | (split <;> rfl)

@[simp] theorem decrementInventory_sessions (st : State) (sp : String) (v q : ℤ) :
    (decrementInventory st sp v q).1.sessions = st.sessions := by
  cases hfind : st.inventory.find? (invKey sp v) <;>
    simp only [decrementInventory, hfind] <;> first | rfl | (split <;> rfl)

@[simp] theorem decrementInventory_playerProfiles (st : State) (sp : String) (v q : ℤ) :
    (decrementInventory st sp v q).1.playerProfiles = st.playerProfiles := by
  cases hfind : st.inventory.find? (invKey sp v) <;>
    simp only [decrementInventory, hfind] <;> first | rfl | (split <;> rfl)

@[simp] theorem decrementInventory_sponsorProfiles (st : State) (sp : String) (v q : ℤ) :
    (decrementInventory st sp v q).1.sponsorProfiles = st.sponsorProfiles := by
  cases hfind : st.inventory.find? (invKey sp v) <;>
    simp only [decrementInventory, hfind] <;> first | rfl | (split <;> rfl)

@[simp] theorem decrementInventory_history (st : State) (sp : String) (v q : ℤ) :
    (decrementInventory st sp v q).1.history = st.history := by
  cases hfind : st.inventory.find? (invKey sp v) <;>
    simp only [decrementInventory, hfind] <;> first | rfl | (split <;> rfl)

@[simp] theorem updateCoinStatus_inventory (st : State) (cid : String)
    (status : CoinStatus) (cb : Option String) (now : ℤ) :
    (updateCoinStatus st cid status cb now).inventory = st.inventory := rfl

@[simp] theorem updateCoinStatus_escrows (st : State) (cid : String)
    (status : CoinStatus) (cb : Option String) (now : ℤ) :
    (updateCoinStatus st cid status cb now).escrows = st.escrows := rfl

@[simp] theorem updateCoinStatus_sessions (st : State) (cid : String)
    (status : CoinStatus) (cb : Option String) (now : ℤ) :
    (updateCoinStatus st cid status cb now).sessions = st.sessions := rfl

@[simp] theorem updateCoinStatus_playerProfiles (st : State) (cid : String)
    (status : CoinStatus) (cb : Option String) (now : ℤ) :
    (updateCoinStatus st cid status cb now).playerProfiles = st.playerProfiles := rfl

@[simp] theorem updateCoinStatus_sponsorProfiles (st : State) (cid : String)
    (status : CoinStatus) (cb : Option String) (now : ℤ) :
    (updateCoinStatus st cid status cb now).sponsorProfiles = st.sponsorProfiles := rfl

@[simp] theorem updateCoinStatus_history (st : State) (cid : String)
    (status : CoinStatus) (cb : Option String) (now : ℤ) :
    (updateCoinStatus st cid status cb now).history = st.history := rfl

@[simp] theorem refundEscrow_inventory (st : State) (cid : String) (now : ℤ) :
    (refundEscrow st cid now).inventory = st.inventory := rfl

@[simp] theorem refundEscrow_coins (st : State) (cid : String) (now : ℤ) :
    (refundEscrow st cid now).coins = st.coins := rfl

@[simp] theorem refundEscrow_sessions (st : State) (cid : String) (now : ℤ) :
    (refundEscrow st cid now).sessions = st.sessions := rfl

@[simp] theorem refundEscrow_playerProfiles (st : State) (cid : String) (now : ℤ) :
    (refundEscrow st cid now).playerProfiles = st.playerProfiles := rfl

@[simp] theorem refundEscrow_sponsorProfiles (st : State) (cid : String) (now : ℤ) :
    (refundEscrow st cid now).sponsorProfiles = st.sponsorProfiles := rfl

@[simp] theorem refundEscrow_history (st : State) (cid : String) (now : ℤ) :
    (refundEscrow st cid now).history = st.history := rfl

theorem refundEscrow_escrows (st : State) (cid : String) (now : ℤ) :
    (refundEscrow st cid now).escrows = st.escrows.map (fun e =>
      if e.coinId = cid
      then { e with status := EscrowStatus.refunded, releasedAt := some now }
      else e) := rfl

@[simp] theorem releaseEscrow_inventory (st : State) (cid : String) (now : ℤ) :
    (releaseEscrow st cid now).inventory = st.inventory := rfl

@[simp] theorem releaseEscrow_coins (st : State) (cid : String) (now : ℤ) :
    (releaseEscrow st cid now).coins = st.coins := rfl

@[simp] theorem releaseEscrow_sessions (st : State) (cid : String) (now : ℤ) :
    (releaseEscrow st cid now).sessions = st.sessions := rfl

@[simp] theorem releaseEscrow_playerProfiles (st : State) (cid : String) (now : ℤ) :
    (releaseEscrow st cid now).playerProfiles = st.playerProfiles := rfl

@[simp] theorem releaseEscrow_sponsorProfiles (st : State) (cid : String) (now : ℤ) :
    (releaseEscrow st cid now).sponsorProfiles = st.sponsorProfiles := rfl

@[simp] theorem releaseEscrow_history (st : State) (cid : String) (now : ℤ) :
    (releaseEscrow st cid now).history = st.history := rfl

theorem releaseEscrow_escrows (st : State) (cid : String) (now : ℤ) :
    (releaseEscrow st cid now).escrows = st.escrows.map (fun e =>
      if e.coinId = cid
      then { e with status := EscrowStatus.released, releasedAt := some now }
      else e) := rfl

end FrameLemmas

section StepLemmas

theorem updateCoinStatus_coins_expired (st : State) (cid : String) (now : ℤ) :
    (updateCoinStatus st cid .expired none now).coins
      = st.coins.map (fun x => if x.id = cid then { x with status := CoinStatus.expired }
          else x) := rfl

theorem updateCoinStatus_coins_collected (st : State) (cid pid : String) (now : ℤ) :
    (updateCoinStatus st cid .collected (some pid) now).coins
      = st.coins.map (fun x => if x.id = cid then
          { x with status := CoinStatus.collected, collectedAt := some now,
                   collectedBy := some pid } else x) := rfl

theorem expireCoinStep_coins (st : State) (c : GeneratedCoin) (now : ℤ) :
    (expireCoinStep st c now).coins
      = st.coins.map (fun x => if x.id = c.id then { x with status := CoinStatus.expired }
          else x) := by
  unfold expireCoinStep
  rw [refundEscrow_coins, addToInventory_coins, updateCoinStatus_coins_expired]

theorem expireCoinStep_escrows (st : State) (c : GeneratedCoin) (now : ℤ) :
    (expireCoinStep st c now).escrows
      = st.escrows.map (fun e => if e.coinId = c.id then
          { e with status := EscrowStatus.refunded, releasedAt := some now } else e) := by
  unfold expireCoinStep
  rw [refundEscrow_escrows, addToInventory_escrows, updateCoinStatus_escrows]

theorem invQty_updateCoinStatus (st : State) (cid : String) (status : CoinStatus)
    (cb : Option String) (now : ℤ) (s : String) (w : ℤ) :
    invQty (updateCoinStatus st cid status cb now) s w = invQty st s w := rfl

theorem invQty_refundEscrow (st : State) (cid : String) (now : ℤ)
    (s : String) (w : ℤ) : invQty (refundEscrow st cid now) s w = invQty st s w := rfl

theorem invQty_releaseEscrow (st : State) (cid : String) (now : ℤ)
    (s : String) (w : ℤ) : invQty (releaseEscrow st cid now) s w = invQty st s w := rfl

theorem expireCoinStep_invQty (st : State) (c : GeneratedCoin) (now : ℤ)
    (s : String) (w : ℤ) :
    invQty (expireCoinStep st c now) s w
      = invQty st s w + (if c.sponsorId = s ∧ c.coinValue = w then 1 else 0) := by
  unfold expireCoinStep
  rw [invQty_refundEscrow, invQty_addToInventory, invQty_updateCoinStatus]

theorem expireCoinStep_sessions (st : State) (c : GeneratedCoin) (now : ℤ) :
    (expireCoinStep st c now).sessions = st.sessions := by
  unfold expireCoinStep
  rw [refundEscrow_sessions, addToInventory_sessions, updateCoinStatus_sessions]

theorem expireCoinStep_playerProfiles (st : State) (c : GeneratedCoin) (now : ℤ) :
    (expireCoinStep st c now).playerProfiles = st.playerProfiles := by
  unfold expireCoinStep
  rw [refundEscrow_playerProfiles, addToInventory_playerProfiles,
    updateCoinStatus_playerProfiles]

theorem expireCoinStep_sponsorProfiles (st : State) (c : GeneratedCoin) (now : ℤ) :
    (expireCoinStep st c now).sponsorProfiles = st.sponsorProfiles := by
  unfold expireCoinStep
  rw [refundEscrow_sponsorProfiles, addToInventory_sponsorProfiles,
    updateCoinStatus_sponsorProfiles]

theorem expireCoinStep_history (st : State) (c : GeneratedCoin) (now : ℤ) :
    (expireCoinStep st c now).history = st.history := by
  unfold expireCoinStep
  rw [refundEscrow_history, addToInventory_history, updateCoinStatus_history]

end StepLemmas

section LoopLemmas

theorem expireLoop_coins (now : ℤ) (L : List GeneratedCoin) :
    ∀ st : State,
      (L.foldl (fun st c => expireCoinStep st c now) st).coins
        = st.coins.map (fun x => if x.id ∈ L.map (fun c => c.id)
            then { x with status := CoinStatus.expired } else x) := by
  induction L with
  | nil =>
    intro st
    simp
  | cons c L ih =>
    intro st
    rw [List.foldl_cons, ih, expireCoinStep_coins, List.map_map]
    refine List.map_congr_left fun x _ => ?_
    by_cases hx : x.id = c.id
    · by_cases hx2 : x.id ∈ L.map (fun c => c.id) <;>
        simp [Function.comp, hx, hx2, List.mem_cons]
    · by_cases hx2 : x.id ∈ L.map (fun c => c.id) <;>
        simp [Function.comp, hx, hx2, List.mem_cons]

theorem expireLoop_escrows (now : ℤ) (L : List GeneratedCoin) :
    ∀ st : State,
      (L.foldl (fun st c => expireCoinStep st c now) st).escrows
        = st.escrows.map (fun e => if e.coinId ∈ L.map (fun c => c.id)
            then { e with status := EscrowStatus.refunded, releasedAt := some now }
            else e) := by
  induction L with
  | nil =>
    intro st
    simp
  | cons c L ih =>
    intro st
    rw [List.foldl_cons, ih, expireCoinStep_escrows, List.map_map]
    refine List.map_congr_left fun e _ => ?_
    by_cases hx : e.coinId = c.id
    · by_cases hx2 : e.coinId ∈ L.map (fun c => c.id) <;>
        simp [Function.comp, hx, hx2, List.mem_cons]
    · by_cases hx2 : e.coinId ∈ L.map (fun c => c.id) <;>
        simp [Function.comp, hx, hx2, List.mem_cons]

theorem expireLoop_invQty (now : ℤ) (s : String) (w : ℤ) (L : List GeneratedCoin) :
    ∀ st : State,
      invQty (L.foldl (fun st c => expireCoinStep st c now) st) s w
        = invQty st s w
          + (L.countP (fun c => decide (c.sponsorId = s ∧ c.coinValue = w)) : ℤ) := by
  induction L with
  | nil =>
    intro st
    simp
  | cons c L ih =>
    intro st
    rw [List.foldl_cons, ih, expireCoinStep_invQty, List.countP_cons]
    by_cases hkey : c.sponsorId = s ∧ c.coinValue = w <;>
      simp [hkey] <;> ring

theorem expireLoop_sessions (now : ℤ) (L : List GeneratedCoin) :
    ∀ st : State,
      (L.foldl (fun st c => expireCoinStep st c now) st).sessions = st.sessions := by
  induction L with
  | nil => intro st; rfl
  | cons c L ih =>
    intro st
    rw [List.foldl_cons, ih, expireCoinStep_sessions]

theorem expireLoop_playerProfiles (now : ℤ) (L : List GeneratedCoin) :
    ∀ st : State,
      (L.foldl (fun st c => expireCoinStep st c now) st).playerProfiles
        = st.playerProfiles := by
  induction L with
  | nil => intro st; rfl
  | cons c L ih =>
    intro st
    rw [List.foldl_cons, ih, expireCoinStep_playerProfiles]

theorem expireLoop_sponsorProfiles (now : ℤ) (L : List GeneratedCoin) :
    ∀ st : State,
      (L.foldl (fun st c => expireCoinStep st c now) st).sponsorProfiles
        = st.sponsorProfiles := by
  induction L with
  | nil => intro st; rfl
  | cons c L ih =>
    intro st
    rw [List.foldl_cons, ih, expireCoinStep_sponsorProfiles]

theorem expireLoop_history (now : ℤ) (L : List GeneratedCoin) :
    ∀ st : State,
      (L.foldl (fun st c => expireCoinStep st c now) st).history = st.history := by
  induction L with
  | nil => intro st; rfl
  | cons c L ih =>
    intro st
    rw [List.foldl_cons, ih, expireCoinStep_history]

end LoopLemmas

section CountLemmas

theorem countP_unique_id (l : List GeneratedCoin)
    (hnd : (l.map (fun c => c.id)).Nodup) (c : GeneratedCoin) (hc : c ∈ l)
    (r : GeneratedCoin → Bool) :
    l.countP (fun x => decide (x.id = c.id) && r x) = if r c then 1 else 0 := by
  induction l with
  | nil => simp at hc
  | cons a as ih =>
    have hnd2 : (as.map (fun c => c.id)).Nodup := by
      rw [List.map_cons, List.nodup_cons] at hnd
      exact hnd.2
    have hhead : a.id ∉ as.map (fun c => c.id) := by
      rw [List.map_cons, List.nodup_cons] at hnd
      exact hnd.1
    rcases List.mem_cons.mp hc with rfl | hmem
    · rw [List.countP_cons]
      have hz : as.countP (fun x => decide (x.id = c.id) && r x) = 0 := by
        rw [List.countP_eq_zero]
        intro x hx
        have hne : x.id ≠ c.id := fun h =>
          hhead (List.mem_map.mpr ⟨x, hx, h⟩)
        simp [hne]
      by_cases hr : r c <;> simp [hz, hr]
    · have hne : a.id ≠ c.id := fun h =>
        hhead (h ▸ List.mem_map.mpr ⟨c, hmem, rfl⟩)
      rw [List.countP_cons, ih hnd2 hmem]
      simp [hne]

theorem mem_filter_ids_iff (l : List GeneratedCoin)
    (hnd : (l.map (fun c => c.id)).Nodup) (q : GeneratedCoin → Bool)
    (x : GeneratedCoin) (hx : x ∈ l) :
    x.id ∈ (l.filter q).map (fun c => c.id) ↔ q x := by
  constructor
  · intro h
    rcases List.mem_map.mp h with ⟨c, hcf, hid⟩
    have hcl : c ∈ l := List.mem_of_mem_filter hcf
    have : c = x := List.inj_on_of_nodup_map hnd hcl hx hid
    subst this
    exact (List.mem_filter.mp hcf).2
  · intro h
    exact List.mem_map.mpr ⟨x, List.mem_filter.mpr ⟨hx, h⟩, rfl⟩

theorem countP_id_mem_filter (l : List GeneratedCoin)
    (hnd : (l.map (fun c => c.id)).Nodup) (q : GeneratedCoin → Bool)
    (r : GeneratedCoin → Bool) :
    l.countP (fun x => decide (x.id ∈ (l.filter q).map (fun c => c.id)) && r x)
      = (l.filter q).countP r := by
  rw [List.countP_filter]
  refine List.countP_congr fun x hx => ?_
  have := mem_filter_ids_iff l hnd q x hx
  by_cases hq : q x <;> by_cases hr : r x <;> simp [hq, hr, this]

end CountLemmas

section MoreFrameLemmas

@[simp] theorem createGeneratedCoin_coins (st : State) (c : GeneratedCoin) :
    (createGeneratedCoin st c).coins = st.coins ++ [c] := rfl

@[simp] theorem createGeneratedCoin_sessions (st : State) (c : GeneratedCoin) :
    (createGeneratedCoin st c).sessions = st.sessions := rfl

@[simp] theorem createGeneratedCoin_inventory (st : State) (c : GeneratedCoin) :
    (createGeneratedCoin st c).inventory = st.inventory := rfl

@[simp] theorem createGeneratedCoin_escrows (st : State) (c : GeneratedCoin) :
    (createGeneratedCoin st c).escrows = st.escrows := rfl

@[simp] theorem createGeneratedCoin_playerProfiles (st : State) (c : GeneratedCoin) :
    (createGeneratedCoin st c).playerProfiles = st.playerProfiles := rfl

@[simp] theorem createGeneratedCoin_sponsorProfiles (st : State) (c : GeneratedCoin) :
    (createGeneratedCoin st c).sponsorProfiles = st.sponsorProfiles := rfl

@[simp] theorem createGeneratedCoin_history (st : State) (c : GeneratedCoin) :
    (createGeneratedCoin st c).history = st.history := rfl

@[simp] theorem createEscrow_escrows (st : State) (e : EscrowRow) :
    (createEscrow st e).escrows = st.escrows ++ [e] := rfl

@[simp] theorem createEscrow_coins (st : State) (e : EscrowRow) :
    (createEscrow st e).coins = st.coins := rfl

@[simp] theorem createEscrow_sessions (st : State) (e : EscrowRow) :
    (createEscrow st e).sessions = st.sessions := rfl

@[simp] theorem createEscrow_inventory (st : State) (e : EscrowRow) :
    (createEscrow st e).inventory = st.inventory := rfl

@[simp] theorem createEscrow_playerProfiles (st : State) (e : EscrowRow) :
    (createEscrow st e).playerProfiles = st.playerProfiles := rfl

@[simp] theorem createEscrow_sponsorProfiles (st : State) (e : EscrowRow) :
    (createEscrow st e).sponsorProfiles = st.sponsorProfiles := rfl

@[simp] theorem createEscrow_history (st : State) (e : EscrowRow) :
    (createEscrow st e).history = st.history := rfl

@[simp] theorem createSession_sessions (st : State) (s : SessionRow) :
    (createSession st s).sessions = st.sessions ++ [s] := rfl

@[simp] theorem createSession_coins (st : State) (s : SessionRow) :
    (createSession st s).coins = st.coins := rfl

@[simp] theorem createSession_inventory (st : State) (s : SessionRow) :
    (createSession st s).inventory = st.inventory := rfl

@[simp] theorem createSession_escrows (st : State) (s : SessionRow) :
    (createSession st s).escrows = st.escrows := rfl

@[simp] theorem createSession_playerProfiles (st : State) (s : SessionRow) :
    (createSession st s).playerProfiles = st.playerProfiles := rfl

@[simp] theorem createSession_sponsorProfiles (st : State) (s : SessionRow) :
    (createSession st s).sponsorProfiles = st.sponsorProfiles := rfl

@[simp] theorem createSession_history (st : State) (s : SessionRow) :
    (createSession st s).history = st.history := rfl

@[simp] theorem addCollectionHistory_history (st : State) (h : CollectionHistoryRow) :
    (addCollectionHistory st h).history = st.history ++ [h] := rfl

@[simp] theorem addCollectionHistory_coins (st : State) (h : CollectionHistoryRow) :
    (addCollectionHistory st h).coins = st.coins := rfl

@[simp] theorem addCollectionHistory_inventory (st : State) (h : CollectionHistoryRow) :
    (addCollectionHistory st h).inventory = st.inventory := rfl

@[simp] theorem addCollectionHistory_sessions (st : State) (h : CollectionHistoryRow) :
    (addCollectionHistory st h).sessions = st.sessions := rfl

@[simp] theorem addCollectionHistory_escrows (st : State) (h : CollectionHistoryRow) :
    (addCollectionHistory st h).escrows = st.escrows := rfl

@[simp] theorem addCollectionHistory_playerProfiles (st : State)
    (h : CollectionHistoryRow) :
    (addCollectionHistory st h).playerProfiles = st.playerProfiles := rfl

@[simp] theorem addCollectionHistory_sponsorProfiles (st : State)
    (h : CollectionHistoryRow) :
    (addCollectionHistory st h).sponsorProfiles = st.sponsorProfiles := rfl

@[simp] theorem updatePlayerStats_coins (st : State) (u : String) (a b : ℤ) :
    (updatePlayerStats st u a b).coins = st.coins := rfl

@[simp] theorem updatePlayerStats_inventory (st : State) (u : String) (a b : ℤ) :
    (updatePlayerStats st u a b).inventory = st.inventory := rfl

@[simp] theorem updatePlayerStats_sessions (st : State) (u : String) (a b : ℤ) :
    (updatePlayerStats st u a b).sessions = st.sessions := rfl

@[simp] theorem updatePlayerStats_escrows (st : State) (u : String) (a b : ℤ) :
    (updatePlayerStats st u a b).escrows = st.escrows := rfl

@[simp] theorem updatePlayerStats_sponsorProfiles (st : State) (u : String) (a b : ℤ) :
    (updatePlayerStats st u a b).sponsorProfiles = st.sponsorProfiles := rfl

@[simp] theorem updatePlayerStats_history (st : State) (u : String) (a b : ℤ) :
    (updatePlayerStats st u a b).history = st.history := rfl

@[simp] theorem updateSponsorStats_coins (st : State) (u : String) (a b : ℤ) :
    (updateSponsorStats st u a b).coins = st.coins := rfl

@[simp] theorem updateSponsorStats_inventory (st : State) (u : String) (a b : ℤ) :
    (updateSponsorStats st u a b).inventory = st.inventory := rfl

@[simp] theorem updateSponsorStats_sessions (st : State) (u : String) (a b : ℤ) :
    (updateSponsorStats st u a b).sessions = st.sessions := rfl

@[simp] theorem updateSponsorStats_escrows (st : State) (u : String) (a b : ℤ) :
    (updateSponsorStats st u a b).escrows = st.escrows := rfl

@[simp] theorem updateSponsorStats_playerProfiles (st : State) (u : String) (a b : ℤ) :
    (updateSponsorStats st u a b).playerProfiles = st.playerProfiles := rfl

@[simp] theorem updateSponsorStats_history (st : State) (u : String) (a b : ℤ) :
    (updateSponsorStats st u a b).history = st.history := rfl

@[simp] theorem updateSponsorPurchasedCount_inventory (st : State) (u : String) (q : ℤ) :
    (updateSponsorPurchasedCount st u q).inventory = st.inventory := rfl

@[simp] theorem updateSponsorPurchasedCount_coins (st : State) (u : String) (q : ℤ) :
    (updateSponsorPurchasedCount st u q).coins = st.coins := rfl

@[simp] theorem updateSessionCounts_coins (st : State) (i : String) (a b : ℤ) :
    (updateSessionCounts st i a b).coins = st.coins := rfl

@[simp] theorem updateSessionCounts_inventory (st : State) (i : String) (a b : ℤ) :
    (updateSessionCounts st i a b).inventory = st.inventory := rfl

@[simp] theorem updateSessionCounts_escrows (st : State) (i : String) (a b : ℤ) :
    (updateSessionCounts st i a b).escrows = st.escrows := rfl

@[simp] theorem updateSessionCounts_playerProfiles (st : State) (i : String) (a b : ℤ) :
    (updateSessionCounts st i a b).playerProfiles = st.playerProfiles := rfl

@[simp] theorem updateSessionCounts_sponsorProfiles (st : State) (i : String) (a b : ℤ) :
    (updateSessionCounts st i a b).sponsorProfiles = st.sponsorProfiles := rfl

@[simp] theorem updateSessionCounts_history (st : State) (i : String) (a b : ℤ) :
    (updateSessionCounts st i a b).history = st.history := rfl

@[simp] theorem endSession_coins (st : State) (i : String) (s : SessionStatus) (now : ℤ) :
    (endSession st i s now).coins = st.coins := rfl

@[simp] theorem endSession_inventory (st : State) (i : String) (s : SessionStatus)
    (now : ℤ) : (endSession st i s now).inventory = st.inventory := rfl

@[simp] theorem endSession_escrows (st : State) (i : String) (s : SessionStatus)
    (now : ℤ) : (endSession st i s now).escrows = st.escrows := rfl

@[simp] theorem endSession_playerProfiles (st : State) (i : String) (s : SessionStatus)
    (now : ℤ) : (endSession st i s now).playerProfiles = st.playerProfiles := rfl

@[simp] theorem endSession_sponsorProfiles (st : State) (i : String) (s : SessionStatus)
    (now : ℤ) : (endSession st i s now).sponsorProfiles = st.sponsorProfiles := rfl

@[simp] theorem endSession_history (st : State) (i : String) (s : SessionStatus)
    (now : ℤ) : (endSession st i s now).history = st.history := rfl

end MoreFrameLemmas

section PlaceLemmas

theorem placeUnit_sessions (lat lon : ℝ) (sid : String) (ea : ℤ)
    (cf : ℕ → String) (rf : ℕ → ℝ × ℝ) (st : State) (iu : ℕ × DrawUnit) :
    (placeUnit lat lon sid ea cf rf st iu).sessions = st.sessions := by
  unfold placeUnit
  rcases h : decrementInventory st iu.2.sponsorId iu.2.coinValue 1 with ⟨st1, b⟩
  have hs : st1.sessions = st.sessions := by
    have := decrementInventory_sessions st iu.2.sponsorId iu.2.coinValue 1
    rw [h] at this
    exact this
  cases b <;> simp [h, hs]

theorem placeUnit_playerProfiles (lat lon : ℝ) (sid : String) (ea : ℤ)
    (cf : ℕ → String) (rf : ℕ → ℝ × ℝ) (st : State) (iu : ℕ × DrawUnit) :
    (placeUnit lat lon sid ea cf rf st iu).playerProfiles = st.playerProfiles := by
  unfold placeUnit
  rcases h : decrementInventory st iu.2.sponsorId iu.2.coinValue 1 with ⟨st1, b⟩
  have hs : st1.playerProfiles = st.playerProfiles := by
    have := decrementInventory_playerProfiles st iu.2.sponsorId iu.2.coinValue 1
    rw [h] at this
    exact this
  cases b <;> simp [h, hs]

theorem placeUnit_coins_append (lat lon : ℝ) (sid : String) (ea : ℤ)
    (cf : ℕ → String) (rf : ℕ → ℝ × ℝ) (st : State) (iu : ℕ × DrawUnit) :
    ∃ l, (placeUnit lat lon sid ea cf rf st iu).coins = st.coins ++ l := by
  unfold placeUnit
  rcases h : decrementInventory st iu.2.sponsorId iu.2.coinValue 1 with ⟨st1, b⟩
  have hc : st1.coins = st.coins := by
    have := decrementInventory_coins st iu.2.sponsorId iu.2.coinValue 1
    rw [h] at this
    exact this
  cases b
  · exact ⟨[], by simp [h, hc]⟩
  · exact ⟨[⟨cf iu.1, iu.2.sponsorId, some sid, iu.2.coinValue,
      (generateRandomPointInRadius lat lon 1 2 (rf iu.1).1 (rf iu.1).2).1,
      (generateRandomPointInRadius lat lon 1 2 (rf iu.1).1 (rf iu.1).2).2,
      .placed, ea, none, none⟩], by simp [h, hc]⟩

theorem placeUnit_conserved (lat lon : ℝ) (sid : String) (ea : ℤ)
    (cf : ℕ → String) (rf : ℕ → ℝ × ℝ) (s : String) (w : ℤ)
    (st : State) (iu : ℕ × DrawUnit) :
    conservedValue (placeUnit lat lon sid ea cf rf st iu) s w
      = conservedValue st s w := by
  unfold placeUnit
  rcases h : decrementInventory st iu.2.sponsorId iu.2.coinValue 1 with ⟨st1, b⟩
  cases b
  · have h1 : st1 = st := by
      have := decrementInventory_false st iu.2.sponsorId iu.2.coinValue 1 (by rw [h])
      rw [h] at this
      exact this
    simp [h, h1]
  · have h2 : (decrementInventory st iu.2.sponsorId iu.2.coinValue 1).2 = true := by
      rw [h]
    have hinv := invQty_decrementInventory_true st iu.2.sponsorId iu.2.coinValue 1 s w h2
    rw [h] at hinv
    have hcoins : st1.coins = st.coins := by
      have := decrementInventory_coins st iu.2.sponsorId iu.2.coinValue 1
      rw [h] at this
      exact this
    simp only [h]
    unfold conservedValue countCoins
    simp only [createEscrow_coins, createGeneratedCoin_coins, hcoins,
      List.countP_append]
    have hq : invQty (createEscrow (createGeneratedCoin st1
        ⟨cf iu.1, iu.2.sponsorId, some sid, iu.2.coinValue,
          (generateRandomPointInRadius lat lon 1 2 (rf iu.1).1 (rf iu.1).2).1,
          (generateRandomPointInRadius lat lon 1 2 (rf iu.1).1 (rf iu.1).2).2,
          .placed, ea, none, none⟩)
        ⟨cf iu.1, iu.2.sponsorId, iu.2.coinValue, .held, none⟩) s w
        = invQty st1 s w := rfl
    rw [hq, hinv]
    by_cases hkey : iu.2.sponsorId = s ∧ iu.2.coinValue = w
    · simp [List.countP_cons, coinKey, hkey.1, hkey.2, if_pos hkey]
    · have hk1 : coinKey s w CoinStatus.placed
          ⟨cf iu.1, iu.2.sponsorId, some sid, iu.2.coinValue,
            (generateRandomPointInRadius lat lon 1 2 (rf iu.1).1 (rf iu.1).2).1,
            (generateRandomPointInRadius lat lon 1 2 (rf iu.1).1 (rf iu.1).2).2,
            .placed, ea, none, none⟩ = false := by
        simp only [coinKey, decide_eq_false_iff_not]
        exact fun hc => hkey ⟨hc.1, hc.2.1⟩
      simp [List.countP_cons, hk1, coinKey, if_neg hkey]

end PlaceLemmas

section PlaceLoopLemmas

theorem placeLoop_sessions (lat lon : ℝ) (sid : String) (ea : ℤ)
    (cf : ℕ → String) (rf : ℕ → ℝ × ℝ) (l : List (ℕ × DrawUnit)) :
    ∀ st : State,
      (l.foldl (placeUnit lat lon sid ea cf rf) st).sessions = st.sessions := by
  induction l with
  | nil => intro st; rfl
  | cons a l ih =>
    intro st
    rw [List.foldl_cons, ih, placeUnit_sessions]

theorem placeLoop_playerProfiles (lat lon : ℝ) (sid : String) (ea : ℤ)
    (cf : ℕ → String) (rf : ℕ → ℝ × ℝ) (l : List (ℕ × DrawUnit)) :
    ∀ st : State,
      (l.foldl (placeUnit lat lon sid ea cf rf) st).playerProfiles
        = st.playerProfiles := by
  induction l with
  | nil => intro st; rfl
  | cons a l ih =>
    intro st
    rw [List.foldl_cons, ih, placeUnit_playerProfiles]

theorem placeLoop_coins_append (lat lon : ℝ) (sid : String) (ea : ℤ)
    (cf : ℕ → String) (rf : ℕ → ℝ × ℝ) (l : List (ℕ × DrawUnit)) :
    ∀ st : State,
      ∃ suffix, (l.foldl (placeUnit lat lon sid ea cf rf) st).coins
        = st.coins ++ suffix := by
  induction l with
  | nil => intro st; exact ⟨[], by simp⟩
  | cons a l ih =>
    intro st
    rcases placeUnit_coins_append lat lon sid ea cf rf st a with ⟨l1, h1⟩
    rcases ih (placeUnit lat lon sid ea cf rf st a) with ⟨l2, h2⟩
    refine ⟨l1 ++ l2, ?_⟩
    rw [List.foldl_cons, h2, h1, List.append_assoc]

theorem placeLoop_conserved (lat lon : ℝ) (sid : String) (ea : ℤ)
    (cf : ℕ → String) (rf : ℕ → ℝ × ℝ) (s : String) (w : ℤ)
    (l : List (ℕ × DrawUnit)) :
    ∀ st : State,
      conservedValue (l.foldl (placeUnit lat lon sid ea cf rf) st) s w
        = conservedValue st s w := by
  induction l with
  | nil => intro st; rfl
  | cons a l ih =>
    intro st
    rw [List.foldl_cons, ih, placeUnit_conserved]

end PlaceLoopLemmas

section CollectBranchLemmas

theorem collectCoin_unavailable (st : State) (uid cid : String) (lat lon : ℝ)
    (now : ℤ) (profile : PlayerProfileRow) (session : SessionRow)
    (coin : GeneratedCoin)
    (h1 : getPlayerProfile st uid = some profile)
    (h2 : getActiveSession st profile.id = some session)
    (h3 : getGeneratedCoin st cid = some coin)
    (h4 : coin.status ≠ CoinStatus.placed) :
    collectCoin st uid cid lat lon now = (st, .coinUnavailable) := by
  unfold collectCoin
  simp only [h1, h2, h3]
  simp [h4]

theorem collectCoin_expiry (st : State) (uid cid : String) (lat lon : ℝ)
    (now : ℤ) (profile : PlayerProfileRow) (session : SessionRow)
    (coin : GeneratedCoin)
    (h1 : getPlayerProfile st uid = some profile)
    (h2 : getActiveSession st profile.id = some session)
    (h3 : getGeneratedCoin st cid = some coin)
    (h4 : coin.status = CoinStatus.placed)
    (h5 : coin.sessionId = some session.id)
    (h6 : calculateDistance lat lon coin.latitude coin.longitude
      ≤ COLLECTION_RADIUS_METERS)
    (h7 : coin.expiresAt < now) :
    collectCoin st uid cid lat lon now = (expireCoinStep st coin now, .coinExpired) := by
  unfold collectCoin
  simp only [h1, h2, h3]
  simp [h4, h5, not_lt.mpr h6, h7]

theorem collectCoin_success (st : State) (uid cid : String) (lat lon : ℝ)
    (now : ℤ) (profile : PlayerProfileRow) (session : SessionRow)
    (coin : GeneratedCoin)
    (h1 : getPlayerProfile st uid = some profile)
    (h2 : getActiveSession st profile.id = some session)
    (h3 : getGeneratedCoin st cid = some coin)
    (h4 : coin.status = CoinStatus.placed)
    (h5 : coin.sessionId = some session.id)
    (h6 : calculateDistance lat lon coin.latitude coin.longitude
      ≤ COLLECTION_RADIUS_METERS)
    (h7 : now ≤ coin.expiresAt) :
    collectCoin st uid cid lat lon now
      = (addCollectionHistory
          (updateSessionCounts
            (updateSponsorStats
              (updatePlayerStats
                (releaseEscrow
                  (updateCoinStatus st coin.id .collected (some profile.id) now)
                  coin.id now)
                uid 1 coin.coinValue)
              coin.sponsorId 0 coin.coinValue)
            session.id (session.coinsCollected + 1)
            (session.totalValue + coin.coinValue))
          ⟨profile.id, coin.id, session.id, coin.coinValue, now⟩,
        .collected coin.coinValue) := by
  unfold collectCoin
  simp only [h1, h2, h3]
  simp [h4, h5, not_lt.mpr h6, not_lt.mpr h7]

end CollectBranchLemmas

section GeometryLemmas

theorem atan2_pos_x (y x : ℝ) (hx : 0 < x) : atan2 y x = Real.arctan (y / x) := by
  unfold atan2
  rw [if_pos hx]

theorem calculateDistance_self (a b : ℝ) : calculateDistance a b a b = 0 := by
  simp only [calculateDistance, sub_self, zero_mul, zero_div, Real.sin_zero,
    mul_zero, zero_add, add_zero, Real.sqrt_zero, sub_zero, Real.sqrt_one,
    atan2_pos_x 0 1 one_pos, Real.arctan_zero]

theorem calculateDistance_north (lat lon d : ℝ) (h0 : 0 ≤ d) (h1 : d < 180) :
    calculateDistance lat lon (lat + d) lon = 6371e3 * (d * Real.pi / 180) := by
  have hπ := Real.pi_pos
  have hX0 : 0 ≤ d * Real.pi / 360 := by
    apply div_nonneg _ (by norm_num)
    exact mul_nonneg h0 (le_of_lt hπ)
  have hX2 : d * Real.pi / 360 < Real.pi / 2 := by
    have h2 : d * Real.pi < 180 * Real.pi := by
      exact mul_lt_mul_of_pos_right h1 hπ
    calc d * Real.pi / 360 < 180 * Real.pi / 360 := by linarith
      _ = Real.pi / 2 := by ring
  have hsin : 0 ≤ Real.sin (d * Real.pi / 360) :=
    Real.sin_nonneg_of_nonneg_of_le_pi hX0 (by linarith)
  have hcos : 0 < Real.cos (d * Real.pi / 360) :=
    Real.cos_pos_of_mem_Ioo ⟨by linarith, hX2⟩
  simp only [calculateDistance]
  have e1 : (lat + d - lat) * Real.pi / 180 / 2 = d * Real.pi / 360 := by ring
  have e2 : (lon - lon) * Real.pi / 180 / 2 = 0 := by ring
  rw [e1, e2, Real.sin_zero]
  simp only [mul_zero, add_zero]
  rw [Real.sqrt_mul_self hsin]
  have hs2 : 1 - Real.sin (d * Real.pi / 360) * Real.sin (d * Real.pi / 360)
      = Real.cos (d * Real.pi / 360) * Real.cos (d * Real.pi / 360) := by
    have h := Real.sin_sq_add_cos_sq (d * Real.pi / 360)
    rw [pow_two, pow_two] at h
    linarith
  rw [hs2, Real.sqrt_mul_self (le_of_lt hcos), atan2_pos_x _ _ hcos,
    ← Real.tan_eq_sin_div_cos, Real.arctan_tan (by linarith) hX2]
  ring

theorem generateRandomPointInRadius_angle_zero (clat clon minR maxR u1 : ℝ) :
    generateRandomPointInRadius clat clon minR maxR u1 0
      = (clat + (minR + u1 * (maxR - minR)) / 111, clon) := by
  simp [generateRandomPointInRadius, Real.cos_zero, Real.sin_zero]

end GeometryLemmas

section ConservationLemmas

theorem countP_update_one (l : List GeneratedCoin)
    (hnd : (l.map (fun c => c.id)).Nodup) (coin : GeneratedCoin) (hmem : coin ∈ l)
    (f : GeneratedCoin → GeneratedCoin) (r : GeneratedCoin → Bool) :
    l.countP (fun x => r (if x.id = coin.id then f x else x))
        + (if r coin then 1 else 0)
      = l.countP r + (if r (f coin) then 1 else 0) := by
  induction l with
  | nil => simp at hmem
  | cons a as ih =>
    have hnd2 : (as.map (fun c => c.id)).Nodup := by
      rw [List.map_cons, List.nodup_cons] at hnd
      exact hnd.2
    have hhead : a.id ∉ as.map (fun c => c.id) := by
      rw [List.map_cons, List.nodup_cons] at hnd
      exact hnd.1
    rcases List.mem_cons.mp hmem with rfl | hmem2
    · rw [List.countP_cons, List.countP_cons]
      have hz : as.countP (fun x => r (if x.id = coin.id then f x else x))
          = as.countP r := by
        refine List.countP_congr fun x hx => ?_
        have hne : x.id ≠ coin.id := fun h => hhead (List.mem_map.mpr ⟨x, hx, h⟩)
        simp [hne]
      rw [hz]
      simp only [if_pos rfl]
      by_cases h1 : r coin <;> by_cases h2 : r (f coin) <;> simp [h1, h2]
    · have hne : a.id ≠ coin.id := fun h =>
        hhead (h ▸ List.mem_map.mpr ⟨coin, hmem2, rfl⟩)
      rw [List.countP_cons, List.countP_cons]
      have hrec := ih hnd2 hmem2
      simp only [hne, if_false]
      by_cases h1 : r a <;> simp [h1] <;> omega

theorem coins_map_ids_nodup (st : State) (g : GeneratedCoin → GeneratedCoin)
    (hg : ∀ x, (g x).id = x.id)
    (hnd : (st.coins.map (fun c => c.id)).Nodup) :
    ((st.coins.map g).map (fun c => c.id)).Nodup := by
  rw [List.map_map]
  have h : ((fun c : GeneratedCoin => c.id) ∘ g) = (fun c : GeneratedCoin => c.id) := by
    funext x
    exact hg x
  rw [h]
  exact hnd

theorem expireCoinStep_conserved (st : State) (coin : GeneratedCoin) (now : ℤ)
    (s : String) (w : ℤ) (hnd : (st.coins.map (fun c => c.id)).Nodup)
    (hmem : coin ∈ st.coins) (hplaced : coin.status = CoinStatus.placed) :
    conservedValue (expireCoinStep st coin now) s w = conservedValue st s w := by
  unfold conservedValue countCoins
  rw [expireCoinStep_invQty, expireCoinStep_coins, List.countP_map, List.countP_map]
  simp only [Function.comp_def]
  have hp := countP_update_one st.coins hnd coin hmem (fun x => { x with status := CoinStatus.expired }) (coinKey s w .placed)
  have hc := countP_update_one st.coins hnd coin hmem (fun x => { x with status := CoinStatus.expired }) (coinKey s w .collected)
  have e1 : coinKey s w CoinStatus.placed { coin with status := CoinStatus.expired } = false := by simp [coinKey]
  have e2 : coinKey s w CoinStatus.collected { coin with status := CoinStatus.expired } = false := by simp [coinKey]
  have e3 : coinKey s w CoinStatus.collected coin = false := by simp [coinKey, hplaced]
  rw [e1] at hp
  rw [e2, e3] at hc
  have v0 : (if (false : Bool) = true then (1:ℕ) else 0) = 0 := rfl
  rw [v0] at hp hc
  by_cases hkey : coin.sponsorId = s ∧ coin.coinValue = w
  · have e4 : coinKey s w CoinStatus.placed coin = true := by
      simp [coinKey, hplaced, hkey.1, hkey.2]
    rw [e4] at hp
    have v1 : (if (true : Bool) = true then (1:ℕ) else 0) = 1 := rfl
    rw [v1] at hp
    rw [if_pos hkey]
    omega
  · have e4 : coinKey s w CoinStatus.placed coin = false := by
      simp only [coinKey, decide_eq_false_iff_not]
      exact fun hcon => hkey ⟨hcon.1, hcon.2.1⟩
    rw [e4, v0] at hp
    rw [if_neg hkey]
    omega

theorem updateCoinStatus_collected_conserved (st : State) (coin : GeneratedCoin)
    (pid : String) (now : ℤ) (s : String) (w : ℤ)
    (hnd : (st.coins.map (fun c => c.id)).Nodup)
    (hmem : coin ∈ st.coins) (hplaced : coin.status = CoinStatus.placed) :
    conservedValue (updateCoinStatus st coin.id .collected (some pid) now) s w
      = conservedValue st s w := by
  unfold conservedValue countCoins
  rw [invQty_updateCoinStatus, updateCoinStatus_coins_collected,
    List.countP_map, List.countP_map]
  simp only [Function.comp_def]
  have hp := countP_update_one st.coins hnd coin hmem (fun x => { x with status := CoinStatus.collected, collectedAt := some now, collectedBy := some pid }) (coinKey s w .placed)
  have hc := countP_update_one st.coins hnd coin hmem (fun x => { x with status := CoinStatus.collected, collectedAt := some now, collectedBy := some pid }) (coinKey s w .collected)
  have e1 : coinKey s w CoinStatus.placed { coin with status := CoinStatus.collected, collectedAt := some now, collectedBy := some pid } = false := by simp [coinKey]
  have e3 : coinKey s w CoinStatus.collected coin = false := by simp [coinKey, hplaced]
  have v0 : (if (false : Bool) = true then (1:ℕ) else 0) = 0 := rfl
  rw [e1, v0] at hp
  rw [e3, v0] at hc
  by_cases hkey : coin.sponsorId = s ∧ coin.coinValue = w
  · have e4 : coinKey s w CoinStatus.placed coin = true := by
      simp [coinKey, hplaced, hkey.1, hkey.2]
    have e2 : coinKey s w CoinStatus.collected { coin with status := CoinStatus.collected, collectedAt := some now, collectedBy := some pid } = true := by
      simp [coinKey, hkey.1, hkey.2]
    have v1 : (if (true : Bool) = true then (1:ℕ) else 0) = 1 := rfl
    rw [e4, v1] at hp
    rw [e2, v1] at hc
    omega
  · have e4 : coinKey s w CoinStatus.placed coin = false := by
      simp only [coinKey, decide_eq_false_iff_not]
      exact fun hcon => hkey ⟨hcon.1, hcon.2.1⟩
    have e2 : coinKey s w CoinStatus.collected { coin with status := CoinStatus.collected, collectedAt := some now, collectedBy := some pid } = false := by
      simp only [coinKey, decide_eq_false_iff_not]
      exact fun hcon => hkey ⟨hcon.1, hcon.2.1⟩
    rw [e4, v0] at hp
    rw [e2, v0] at hc
    omega

theorem expireLoop_conserved (now : ℤ) (s : String) (w : ℤ)
    (L : List GeneratedCoin) :
    ∀ st : State, (st.coins.map (fun c => c.id)).Nodup →
      (L.map (fun c => c.id)).Nodup →
      (∀ c ∈ L, c ∈ st.coins ∧ c.status = CoinStatus.placed) →
      conservedValue (L.foldl (fun st c => expireCoinStep st c now) st) s w
        = conservedValue st s w := by
  induction L with
  | nil =>
    intro st _ _ _
    rfl
  | cons c L ih =>
    intro st hnd hndL hsub
    have hndL2 : (L.map (fun c => c.id)).Nodup := by
      rw [List.map_cons, List.nodup_cons] at hndL
      exact hndL.2
    have hheadL : c.id ∉ L.map (fun c => c.id) := by
      rw [List.map_cons, List.nodup_cons] at hndL
      exact hndL.1
    have hc := hsub c (List.mem_cons_self c L)
    have hnd1 : ((expireCoinStep st c now).coins.map (fun c => c.id)).Nodup := by
      rw [expireCoinStep_coins]
      apply coins_map_ids_nodup st _ _ hnd
      intro x
      by_cases hx : x.id = c.id <;> simp [hx]
    have hsub1 : ∀ c2 ∈ L, c2 ∈ (expireCoinStep st c now).coins
        ∧ c2.status = CoinStatus.placed := by
      intro c2 hc2
      have h2 := hsub c2 (List.mem_cons_of_mem c hc2)
      have hne : c2.id ≠ c.id := fun h => hheadL (List.mem_map.mpr ⟨c2, hc2, h⟩)
      refine ⟨?_, h2.2⟩
      rw [expireCoinStep_coins]
      have hmap : (if c2.id = c.id then { c2 with status := CoinStatus.expired } else c2) ∈ st.coins.map (fun x => if x.id = c.id then { x with status := CoinStatus.expired } else x) := List.mem_map.mpr ⟨c2, h2.1, rfl⟩
      rw [if_neg hne] at hmap
      exact hmap
    rw [List.foldl_cons, ih (expireCoinStep st c now) hnd1 hndL2 hsub1,
      expireCoinStep_conserved st c now s w hnd hc.1 hc.2]

end ConservationLemmas

section NonnegLemmas

theorem addToInventory_nonneg (st : State) (sp : String) (v q : ℤ) (hq : 0 ≤ q)
    (h : ∀ e ∈ st.inventory, 0 ≤ e.quantity) :
    ∀ e ∈ (addToInventory st sp v q).inventory, 0 ≤ e.quantity := by
  intro e he
  rcases hfind : st.inventory.find? (invKey sp v) with _ | e0 <;>
    simp only [addToInventory, hfind] at he
  · rcases List.mem_append.mp he with h1 | h1
    · exact h e h1
    · rw [List.mem_singleton] at h1
      subst h1
      exact hq
  · rcases updateFirst_mem he with h1 | ⟨a, ha, rfl⟩
    · exact h e h1
    · have ha2 : a ∈ st.inventory := List.mem_of_find?_eq_some ha
      show 0 ≤ a.quantity + q
      linarith [h a ha2]

theorem decrementInventory_nonneg (st : State) (sp : String) (v q : ℤ)
    (h : ∀ e ∈ st.inventory, 0 ≤ e.quantity) :
    ∀ e ∈ (decrementInventory st sp v q).1.inventory, 0 ≤ e.quantity := by
  intro e he
  rcases hfind : st.inventory.find? (invKey sp v) with _ | e0 <;>
    simp only [decrementInventory, hfind] at he
  · exact h e he
  · by_cases hq2 : e0.quantity < q
    · rw [if_pos hq2] at he
      exact h e he
    · rw [if_neg hq2] at he
      rcases updateFirst_mem he with h1 | ⟨a, ha, rfl⟩
      · exact h e h1
      · have ha0 : a = e0 := Option.some.inj (ha.symm.trans hfind)
        show 0 ≤ a.quantity - q
        rw [ha0]
        linarith [not_lt.mp hq2]

theorem applyInvOps_nonneg (ops : List InvOp) :
    ∀ st : State, (∀ e ∈ st.inventory, 0 ≤ e.quantity) →
      (∀ s w r, InvOp.credit s w r ∈ ops → 0 ≤ r) →
      ∀ e ∈ (applyInvOps st ops).inventory, 0 ≤ e.quantity := by
  induction ops with
  | nil =>
    intro st h _
    exact h
  | cons op ops ih =>
    intro st h hops
    have hstep : ∀ e ∈ (applyInvOp st op).inventory, 0 ≤ e.quantity := by
      cases op with
      | credit s v q =>
        exact addToInventory_nonneg st s v q
          (hops s v q (List.mem_cons_self _ _)) h
      | debit s v q => exact decrementInventory_nonneg st s v q h
    exact ih (applyInvOp st op) hstep
      (fun s w r hr => hops s w r (List.mem_cons_of_mem op hr))

end NonnegLemmas

section ClaimC6

/-- Claim C6 counterexample: the claim says releaseEscrow on a refunded hold
errors and leaves the refunded status unchanged; in the code releaseEscrow
carries no precondition at all, so a refunded hold is silently overwritten
to released. -/
theorem C6_counterexample :
    escrowRefundedW.status = EscrowStatus.refunded ∧
    (releaseEscrow stRefundW "c1" 60).escrows.map (fun e => (e.status, e.releasedAt))
      = [(EscrowStatus.released, some 60)] := by
  constructor
  · rfl
  · rfl

/-- Claim C6 (amended): releaseEscrow unconditionally sets every hold of the
coin to released and stamps releasedAt, so releasing an already-released
hold is a status no-op (but restamps the timestamp) and releasing a
refunded hold silently overwrites it to released instead of erroring;
symmetrically refundEscrow overwrites released holds to refunded.  Holds of
other coins are untouched. -/
theorem C6_escrow_overwrite (st : State) (cid : String) (now : ℤ) (e : EscrowRow)
    (he : e ∈ st.escrows) :
    ((e.coinId = cid →
        { e with status := EscrowStatus.released, releasedAt := some now }
          ∈ (releaseEscrow st cid now).escrows) ∧
      (e.coinId ≠ cid → e ∈ (releaseEscrow st cid now).escrows)) ∧
    ((e.coinId = cid →
        { e with status := EscrowStatus.refunded, releasedAt := some now }
          ∈ (refundEscrow st cid now).escrows) ∧
      (e.coinId ≠ cid → e ∈ (refundEscrow st cid now).escrows)) := by
  refine ⟨⟨fun h => ?_, fun h => ?_⟩, ⟨fun h => ?_, fun h => ?_⟩⟩
  · rw [releaseEscrow_escrows]
    have hm : (if e.coinId = cid then { e with status := EscrowStatus.released, releasedAt := some now } else e) ∈ st.escrows.map (fun x => if x.coinId = cid then { x with status := EscrowStatus.released, releasedAt := some now } else x) := List.mem_map.mpr ⟨e, he, rfl⟩
    rw [if_pos h] at hm
    exact hm
  · rw [releaseEscrow_escrows]
    have hm : (if e.coinId = cid then { e with status := EscrowStatus.released, releasedAt := some now } else e) ∈ st.escrows.map (fun x => if x.coinId = cid then { x with status := EscrowStatus.released, releasedAt := some now } else x) := List.mem_map.mpr ⟨e, he, rfl⟩
    rw [if_neg h] at hm
    exact hm
  · rw [refundEscrow_escrows]
    have hm : (if e.coinId = cid then { e with status := EscrowStatus.refunded, releasedAt := some now } else e) ∈ st.escrows.map (fun x => if x.coinId = cid then { x with status := EscrowStatus.refunded, releasedAt := some now } else x) := List.mem_map.mpr ⟨e, he, rfl⟩
    rw [if_pos h] at hm
    exact hm
  · rw [refundEscrow_escrows]
    have hm : (if e.coinId = cid then { e with status := EscrowStatus.refunded, releasedAt := some now } else e) ∈ st.escrows.map (fun x => if x.coinId = cid then { x with status := EscrowStatus.refunded, releasedAt := some now } else x) := List.mem_map.mpr ⟨e, he, rfl⟩
    rw [if_neg h] at hm
    exact hm

/-- Claim C6 witness: the amended theorem evaluated on the concrete refunded
hold, which release turns into a released hold stamped at t = 60. -/
theorem C6_witness :
    { escrowRefundedW with status := EscrowStatus.released, releasedAt := some (60:ℤ) }
      ∈ (releaseEscrow stRefundW "c1" 60).escrows :=
  (C6_escrow_overwrite stRefundW "c1" 60 escrowRefundedW
    (List.mem_singleton.mpr rfl)).1.1 rfl

end ClaimC6

section ClaimC7

/-- Claim C7: inventory non-negativity and the failed-debit frame.  Every
(sponsor, denomination) quantity stays nonnegative under any sequence of
credits and debits (credits of nonnegative quantity, as produced by the
validation layer); a debit with no matching row or with stored quantity
below the request returns false and leaves the whole state unchanged; a
successful debit decrements the debited key by exactly the requested
quantity and leaves every other key unchanged. -/
theorem C7_inventory_safety (st : State) (ops : List InvOp) (sp : String) (v q : ℤ)
    (hinit : ∀ e ∈ st.inventory, 0 ≤ e.quantity)
    (hops : ∀ s w r, InvOp.credit s w r ∈ ops → 0 ≤ r) :
    (∀ e ∈ (applyInvOps st ops).inventory, 0 ≤ e.quantity) ∧
    ((decrementInventory st sp v q).2 = false →
      (decrementInventory st sp v q).1 = st) ∧
    ((st.inventory.find? (invKey sp v) = none
        ∨ ∃ e0, st.inventory.find? (invKey sp v) = some e0 ∧ e0.quantity < q) →
      decrementInventory st sp v q = (st, false)) ∧
    ((decrementInventory st sp v q).2 = true →
      invQty (decrementInventory st sp v q).1 sp v = invQty st sp v - q ∧
      ∀ s w, ¬(sp = s ∧ v = w) →
        invQty (decrementInventory st sp v q).1 s w = invQty st s w) := by
  refine ⟨applyInvOps_nonneg ops st hinit hops,
    decrementInventory_false st sp v q, ?_, ?_⟩
  · intro h
    rcases h with hf | ⟨e0, hf, hlt⟩
    · simp [decrementInventory, hf]
    · simp [decrementInventory, hf, if_pos hlt]
  · intro h
    constructor
    · rw [invQty_decrementInventory_true st sp v q sp v h]
      simp
    · intro s w hne
      rw [invQty_decrementInventory_true st sp v q s w h, if_neg hne, sub_zero]

/-- Claim C7 witness: on the concrete inventory of seven 100-pence coins a
debit of three succeeds and leaves exactly four behind. -/
theorem C7_witness :
    (decrementInventory stW "sp" 100 3).2 = true ∧
    invQty (decrementInventory stW "sp" 100 3).1 "sp" 100
      = invQty stW "sp" 100 - 3 := by
  have hops : ∀ s w r, InvOp.credit s w r ∈ [InvOp.credit "sp" 100 5] → 0 ≤ r := by
    intro s w r hr
    rw [List.mem_singleton] at hr
    injection hr with h1 h2 h3
    subst h3
    norm_num
  refine ⟨by decide, ?_⟩
  exact ((C7_inventory_safety stW [InvOp.credit "sp" 100 5] "sp" 100 3
    (by decide) hops).2.2.2 (by decide)).1

end ClaimC7

section ClaimC10

theorem processWebhook_skip (st : State) (ev : WebhookEvent)
    (hmem : ev.id ∈ st.processedEvents) : processWebhook st ev = st := by
  unfold processWebhook
  rw [if_pos hmem]

theorem handleCheckoutCompleted_processedEvents (st : State) (ev : WebhookEvent) :
    (handleCheckoutCompleted st ev).processedEvents = st.processedEvents := by
  unfold handleCheckoutCompleted
  rcases hf : getSponsorProfileById
      (addToInventory st ev.sponsorId ev.coinValue ev.quantity) ev.sponsorId
    with _ | p <;> simp only [hf] <;>
    exact addToInventory_processedEvents st ev.sponsorId ev.coinValue ev.quantity

theorem processWebhook_processedEvents_fresh (st : State) (ev : WebhookEvent)
    (hfresh : ev.id ∉ st.processedEvents) (hlen : st.processedEvents.length < 1000) :
    (processWebhook st ev).processedEvents = st.processedEvents ++ [ev.id] := by
  unfold processWebhook
  rw [if_neg hfresh]
  have h1 : (if ev.type = "checkout.session.completed"
      then handleCheckoutCompleted st ev else st).processedEvents
      = st.processedEvents := by
    by_cases ht : ev.type = "checkout.session.completed"
    · rw [if_pos ht, handleCheckoutCompleted_processedEvents]
    · rw [if_neg ht]
  show (if 1000 < ((if ev.type = "checkout.session.completed"
      then handleCheckoutCompleted st ev else st).processedEvents
        ++ [ev.id]).length then _ else _) = _
  rw [h1]
  simp only [List.length_append, List.length_singleton]
  rw [if_neg (by omega)]

/-- Claim C10 counterexample: two deliveries of the same completed purchase
(quantity 5 of denomination 100) through GET /api/sponsor/payment-success
credit the inventory twice, to 10 — the endpoint has no event-id
deduplication, so re-invocation is not credited exactly once. -/
theorem C10_counterexample :
    invQty (paymentSuccess stSponsorW "su" 5 100).1 "sp" 100 = 5 ∧
    invQty (paymentSuccess (paymentSuccess stSponsorW "su" 5 100).1
      "su" 5 100).1 "sp" 100 = 10 := by
  decide

/-- Claim C10 (amended): only the webhook entry point deduplicates by event
id — an event whose id is already recorded leaves the state unchanged, and
processing a fresh event twice (below the 1000-entry cache cap) applies it
once; the payment-success redirect endpoint performs no deduplication and
credits the sponsor inventory on every invocation. -/
theorem C10_purchase_credit_dedup (st st2 : State) (ev : WebhookEvent)
    (uid : String) (q v : ℤ) (p : SponsorProfileRow)
    (hmem : ev.id ∈ st.processedEvents)
    (hp : getSponsorProfile st uid = some p)
    (hlen : st2.processedEvents.length < 1000)
    (hfresh : ev.id ∉ st2.processedEvents) :
    processWebhook st ev = st ∧
    processWebhook (processWebhook st2 ev) ev = processWebhook st2 ev ∧
    invQty (paymentSuccess st uid q v).1 p.id v = invQty st p.id v + q := by
  refine ⟨processWebhook_skip st ev hmem, ?_, ?_⟩
  · have hmem2 : ev.id ∈ (processWebhook st2 ev).processedEvents := by
      rw [processWebhook_processedEvents_fresh st2 ev hfresh hlen]
      simp
    exact processWebhook_skip _ ev hmem2
  · unfold paymentSuccess
    simp only [hp]
    rw [invQty_addToInventory]
    simp

/-- Claim C10 witness: the amended theorem evaluated on a concrete state in
which the event id is already recorded, and on the payment-success route
crediting five more coins. -/
theorem C10_witness :
    processWebhook stDupW evW = stDupW ∧
    invQty (paymentSuccess stDupW "su" 5 100).1 "sp" 100
      = invQty stDupW "sp" 100 + 5 := by
  have h := C10_purchase_credit_dedup stDupW stSponsorW evW "su" 5 100 sponsorW
    (by decide) (by decide) (by decide) (by decide)
  exact ⟨h.1, h.2.2⟩

end ClaimC10

section ClaimC9

/-- Claim C9 counterexample: from center (0,0) with random samples
u1 = 999/1000 and u2 = 0 the sampled radius is 1.999 km, yet the program's
own haversine distance of the generated point from the center is
6371000·(1.999/111)·(pi/180), which exceeds 2000 meters (about 2003.6 m,
far beyond floating tolerance): the 111 km/degree conversion understates
the haversine sphere's circa 111.19 km/degree. -/
theorem C9_counterexample :
    2000 < calculateDistance 0 0
      (generateRandomPointInRadius 0 0 1 2 (999/1000) 0).1
      (generateRandomPointInRadius 0 0 1 2 (999/1000) 0).2 := by
  rw [generateRandomPointInRadius_angle_zero]
  rw [calculateDistance_north 0 0 ((1 + (999:ℝ)/1000 * (2-1))/111)
    (by norm_num) (by norm_num)]
  nlinarith [Real.pi_gt_d6]

/-- Claim C9 (amended): for placements at bearing zero (second random
sample 0) the generated point lies, by the program's haversine distance,
at radiusKm·6371000·pi/19980 meters from any center — within [1000, 2004]
meters for every first sample in [0,1) — but the claimed upper bound of
2000 meters fails for samples near the outer radius, because the flat
111 km/degree conversion mismatches the 6371 km haversine sphere. -/
theorem C9_placement_bounds (clat clon u1 : ℝ) (h0 : 0 ≤ u1) (h1 : u1 < 1) :
    1000 ≤ calculateDistance clat clon
        (generateRandomPointInRadius clat clon 1 2 u1 0).1
        (generateRandomPointInRadius clat clon 1 2 u1 0).2 ∧
      calculateDistance clat clon
        (generateRandomPointInRadius clat clon 1 2 u1 0).1
        (generateRandomPointInRadius clat clon 1 2 u1 0).2 ≤ 2004 := by
  rw [generateRandomPointInRadius_angle_zero]
  rw [calculateDistance_north clat clon ((1 + u1 * (2-1))/111)
    (by nlinarith) (by nlinarith)]
  constructor
  · nlinarith [Real.pi_gt_d6]
  · nlinarith [Real.pi_lt_d6, Real.pi_gt_d6]

/-- Claim C9 witness: the amended bounds evaluated at center (0,0) with
first random sample one half. -/
theorem C9_witness :
    1000 ≤ calculateDistance 0 0
        (generateRandomPointInRadius 0 0 1 2 (1/2) 0).1
        (generateRandomPointInRadius 0 0 1 2 (1/2) 0).2 ∧
      calculateDistance 0 0
        (generateRandomPointInRadius 0 0 1 2 (1/2) 0).1
        (generateRandomPointInRadius 0 0 1 2 (1/2) 0).2 ≤ 2004 :=
  C9_placement_bounds 0 0 (1/2) (by norm_num) (by norm_num)

end ClaimC9

section ClaimC1

/-- Claim C1 counterexample: updateCoinStatus applied to an
already-collected coin with status expired silently overwrites the terminal
state — the stored row changes and no conflict is reported (the operation
has no error channel and no status precondition), so a collected coin can
become expired through the status-transition operation. -/
theorem C1_counterexample :
    (getGeneratedCoin stTerminalW "c1").map (fun c => c.status)
        = some CoinStatus.collected ∧
      (getGeneratedCoin (updateCoinStatus stTerminalW "c1" .expired none 99)
          "c1").map (fun c => c.status) = some CoinStatus.expired := by
  decide

/-- Claim C1 (amended): updateCoinStatus itself applies the new status
unconditionally, so at-most-one-terminal-transition holds only at the route
level and only in sequential execution: a collect against a coin that is no
longer placed fails with CoinUnavailable and leaves the state unchanged;
the sweeper and session-end select only placed coins and preserve every
non-placed coin record exactly (given unique coin ids); and session-start
only appends new coins, preserving all existing records. -/
theorem C1_terminal_transition (st : State) (uid cid : String) (lat lon : ℝ)
    (now : ℤ) (profile : PlayerProfileRow) (session : SessionRow)
    (coin : GeneratedCoin)
    (hnd : (st.coins.map (fun c => c.id)).Nodup)
    (h1 : getPlayerProfile st uid = some profile)
    (h2 : getActiveSession st profile.id = some session)
    (h3 : getGeneratedCoin st cid = some coin)
    (h4 : coin.status ≠ CoinStatus.placed) :
    collectCoin st uid cid lat lon now = (st, CollectResult.coinUnavailable) ∧
    (∀ c ∈ st.coins, c.status ≠ CoinStatus.placed →
      c ∈ (runExpirationCheck st now).coins) ∧
    (∀ c ∈ st.coins, c.status ≠ CoinStatus.placed →
      c ∈ (sessionEnd st uid now).1.coins) ∧
    (∀ (st2 : State) (uid2 : String) (lat2 lon2 : ℝ) (units : List DrawUnit)
      (sid : String) (cf : ℕ → String) (rf : ℕ → ℝ × ℝ) (now2 : ℤ),
      ∀ c ∈ st2.coins,
        c ∈ (sessionStartPlace st2 uid2 lat2 lon2 units sid cf rf now2).1.coins) := by
  refine ⟨collectCoin_unavailable st uid cid lat lon now profile session coin
    h1 h2 h3 h4, ?_, ?_, ?_⟩
  · intro c hc hstat
    unfold runExpirationCheck
    rw [expireLoop_coins]
    have hni : c.id ∉ (getExpiredCoins st now).map (fun c => c.id) := by
      unfold getExpiredCoins
      rw [mem_filter_ids_iff st.coins hnd _ c hc]
      simp [hstat]
    have hmap : (if c.id ∈ (getExpiredCoins st now).map (fun c => c.id)
        then { c with status := CoinStatus.expired } else c)
        ∈ st.coins.map (fun x => if x.id ∈ (getExpiredCoins st now).map
          (fun c => c.id) then { x with status := CoinStatus.expired } else x) :=
      List.mem_map.mpr ⟨c, hc, rfl⟩
    rw [if_neg hni] at hmap
    exact hmap
  · intro c hc hstat
    simp only [sessionEnd, h1, h2]
    simp only [endSession_coins]
    rw [expireLoop_coins]
    have hni : c.id ∉ (getActiveCoinsForSession st session.id).map
        (fun c => c.id) := by
      unfold getActiveCoinsForSession
      rw [mem_filter_ids_iff st.coins hnd _ c hc]
      simp [hstat]
    have hmap : (if c.id ∈ (getActiveCoinsForSession st session.id).map
        (fun c => c.id) then { c with status := CoinStatus.expired } else c)
        ∈ st.coins.map (fun x => if x.id ∈ (getActiveCoinsForSession st
          session.id).map (fun c => c.id)
          then { x with status := CoinStatus.expired } else x) :=
      List.mem_map.mpr ⟨c, hc, rfl⟩
    rw [if_neg hni] at hmap
    exact hmap
  · intro st2 uid2 lat2 lon2 units sid cf rf now2 c hc
    rcases hp : getPlayerProfile st2 uid2 with _ | p
    · simp only [sessionStartPlace, hp]
      exact hc
    · rcases hs : getActiveSession st2 p.id with _ | s2
      · by_cases hu : units.isEmpty
        · simp only [sessionStartPlace, hp, hs, if_pos hu]
          exact hc
        · simp only [sessionStartPlace, hp, hs, if_neg hu]
          rcases placeLoop_coins_append lat2 lon2 sid (now2 + COIN_TTL_MINUTES * 60 * 1000) cf rf units.enum (createSession st2 ⟨sid, p.id, .active, lat2, lon2, 0, 0, none⟩) with ⟨suf, hsuf⟩
          rw [hsuf, createSession_coins]
          exact List.mem_append_left _ hc
      · simp only [sessionStartPlace, hp, hs]
        exact hc

/-- Claim C1 witness: collecting the already-collected concrete coin fails
with CoinUnavailable and leaves the state untouched. -/
theorem C1_witness :
    collectCoin stTerminalW "pu" "c1" 0 0 99
      = (stTerminalW, CollectResult.coinUnavailable) :=
  (C1_terminal_transition stTerminalW "pu" "c1" 0 0 99 playerW sessionW
    coinCollectedW (by decide) rfl rfl rfl (by decide)).1

end ClaimC1

section ClaimC3

/-- Claim C3 counterexample: the draw returned one unit, but the inventory
was drained before the placement loop ran (the route awaits between the
draw and each debit, so the loop can observe a later inventory state).
Every debit fails, yet the request succeeds and the session row — created
before the loop — persists as an active session with zero placed coins,
instead of failing with NoCoinsAvailable with no session row. -/
theorem C3_counterexample :
    (sessionStartPlace stEmptyInvW "pu" 0 0 [⟨"sp", 100⟩] "sess9"
        (fun _ => "gc") (fun _ => (0, 0)) 0).2
      = StartResult.started "sess9" [] ∧
    (sessionStartPlace stEmptyInvW "pu" 0 0 [⟨"sp", 100⟩] "sess9"
        (fun _ => "gc") (fun _ => (0, 0)) 0).1.sessions
      = [⟨"sess9", "pp", .active, 0, 0, 0, 0, none⟩] ∧
    (sessionStartPlace stEmptyInvW "pu" 0 0 [⟨"sp", 100⟩] "sess9"
        (fun _ => "gc") (fun _ => (0, 0)) 0).1.coins = [] := by
  exact ⟨rfl, rfl, rfl⟩

/-- Claim C3 (amended): session-start fails with NoCoinsAvailable — leaving
the state untouched, in particular creating no session row — exactly when
the inventory draw returns zero units; when the draw is nonempty the
session row is created before any inventory debit, so the request reports
success and the new active session row exists regardless of how many
debits fail. -/
theorem C3_session_start_empty (st : State) (uid : String) (lat lon : ℝ)
    (units : List DrawUnit) (sid : String) (cf : ℕ → String) (rf : ℕ → ℝ × ℝ)
    (now : ℤ) (profile : PlayerProfileRow)
    (h1 : getPlayerProfile st uid = some profile)
    (h2 : getActiveSession st profile.id = none) :
    (units = [] →
      sessionStartPlace st uid lat lon units sid cf rf now
        = (st, StartResult.noCoinsAvailable)) ∧
    (units ≠ [] →
      (∃ coins, (sessionStartPlace st uid lat lon units sid cf rf now).2
          = StartResult.started sid coins) ∧
      (⟨sid, profile.id, .active, lat, lon, 0, 0, none⟩ : SessionRow)
        ∈ (sessionStartPlace st uid lat lon units sid cf rf now).1.sessions) := by
  constructor
  · intro hu
    subst hu
    simp [sessionStartPlace, h1, h2]
  · intro hu
    have hne : units.isEmpty = false := by
      cases units with
      | nil => exact absurd rfl hu
      | cons a as => rfl
    constructor
    · simp only [sessionStartPlace, h1, h2, hne, Bool.false_eq_true, if_false]
      exact ⟨_, rfl⟩
    · simp only [sessionStartPlace, h1, h2, hne, Bool.false_eq_true, if_false]
      rw [placeLoop_sessions, createSession_sessions]
      exact List.mem_append_right _ (List.mem_singleton.mpr rfl)

/-- Claim C3 witness: the amended theorem on the drained-inventory state —
the nonempty draw yields a success result and the session row exists. -/
theorem C3_witness :
    (⟨"sess9", "pp", .active, 0, 0, 0, 0, none⟩ : SessionRow)
      ∈ (sessionStartPlace stEmptyInvW "pu" 0 0 [⟨"sp", 100⟩] "sess9"
          (fun _ => "gc") (fun _ => (0, 0)) 0).1.sessions :=
  ((C3_session_start_empty stEmptyInvW "pu" 0 0 [⟨"sp", 100⟩] "sess9"
    (fun _ => "gc") (fun _ => (0, 0)) 0 playerW rfl rfl).2
    (by simp)).2

end ClaimC3

section ClaimC5

theorem getGeneratedCoin_expireCoinStep (st : State) (coin : GeneratedCoin)
    (now : ℤ) (cid : String) (h3 : getGeneratedCoin st cid = some coin) :
    getGeneratedCoin (expireCoinStep st coin now) cid
      = some { coin with status := CoinStatus.expired } := by
  unfold getGeneratedCoin at h3 ⊢
  rw [expireCoinStep_coins, List.find?_map]
  have hpg : ((fun c : GeneratedCoin => decide (c.id = cid))
      ∘ (fun x => if x.id = coin.id then { x with status := CoinStatus.expired } else x))
      = (fun c : GeneratedCoin => decide (c.id = cid)) := by
    funext x
    by_cases hx : x.id = coin.id <;> simp [Function.comp, hx]
  rw [hpg, h3]
  simp

/-- Claim C5 counterexample: at the boundary instant now = expiresAt the
collect route still succeeds — its check is expiresAt strictly less than
now — whereas the claim requires now strictly less than expiresAt for
success and demands lazy expiry otherwise (and the sweeper, using
expiresAt less than or equal to now, already treats this very coin as
expired). -/
theorem C5_counterexample :
    (collectCoin stW "pu" "c1" 0 0 100).2 = CollectResult.collected 100 := by
  have h6 : calculateDistance 0 0 coinW.latitude coinW.longitude
      ≤ COLLECTION_RADIUS_METERS := by
    have h0 : calculateDistance 0 0 coinW.latitude coinW.longitude = 0 :=
      calculateDistance_self 0 0
    rw [h0]
    norm_num [COLLECTION_RADIUS_METERS]
  rw [collectCoin_success stW "pu" "c1" 0 0 100 playerW sessionW coinW
    rfl rfl rfl rfl rfl h6 (by decide)]
  rfl

/-- Claim C5 (amended): once the earlier guards pass, collection succeeds
iff now ≤ expiresAt; when expiresAt < now the route applies exactly the
shared three-part reversal expireCoinStep — the same function the sweeper
and session-end apply — marking the coin expired, crediting one unit of its
denomination back to the sponsor inventory and refunding its escrow, and
fails with CoinExpired; at the boundary expiresAt = now the sweeper
selection already contains the coin even though collect would still
succeed. -/
theorem C5_expiry_boundary (st : State) (uid cid : String) (lat lon : ℝ)
    (now : ℤ) (profile : PlayerProfileRow) (session : SessionRow)
    (coin : GeneratedCoin)
    (h1 : getPlayerProfile st uid = some profile)
    (h2 : getActiveSession st profile.id = some session)
    (h3 : getGeneratedCoin st cid = some coin)
    (h4 : coin.status = CoinStatus.placed)
    (h5 : coin.sessionId = some session.id)
    (h6 : calculateDistance lat lon coin.latitude coin.longitude
      ≤ COLLECTION_RADIUS_METERS) :
    (coin.expiresAt < now →
      collectCoin st uid cid lat lon now
          = (expireCoinStep st coin now, CollectResult.coinExpired) ∧
        (getGeneratedCoin (collectCoin st uid cid lat lon now).1 cid).map
          (fun c => c.status) = some CoinStatus.expired ∧
        invQty (collectCoin st uid cid lat lon now).1 coin.sponsorId coin.coinValue
          = invQty st coin.sponsorId coin.coinValue + 1 ∧
        (∀ e ∈ st.escrows, e.coinId = coin.id →
          { e with status := EscrowStatus.refunded, releasedAt := some now }
            ∈ (collectCoin st uid cid lat lon now).1.escrows)) ∧
    (now ≤ coin.expiresAt →
      (collectCoin st uid cid lat lon now).2
        = CollectResult.collected coin.coinValue) ∧
    (coin.expiresAt ≤ now → coin ∈ getExpiredCoins st now) := by
  refine ⟨fun h7 => ?_, fun h7 => ?_, fun h7 => ?_⟩
  · have heq := collectCoin_expiry st uid cid lat lon now profile session coin
      h1 h2 h3 h4 h5 h6 h7
    refine ⟨heq, ?_, ?_, ?_⟩
    · rw [heq]
      rw [getGeneratedCoin_expireCoinStep st coin now cid h3]
      rfl
    · rw [heq]
      rw [expireCoinStep_invQty]
      simp
    · intro e he hecid
      rw [heq]
      rw [expireCoinStep_escrows]
      have hm : (if e.coinId = coin.id then { e with status := EscrowStatus.refunded, releasedAt := some now } else e) ∈ st.escrows.map (fun x => if x.coinId = coin.id then { x with status := EscrowStatus.refunded, releasedAt := some now } else x) := List.mem_map.mpr ⟨e, he, rfl⟩
      rw [if_pos hecid] at hm
      exact hm
  · rw [collectCoin_success st uid cid lat lon now profile session coin
      h1 h2 h3 h4 h5 h6 h7]
  · unfold getExpiredCoins
    exact List.mem_filter.mpr ⟨List.mem_of_find?_eq_some h3, by simp [h4, h7]⟩

/-- Claim C5 witness: collecting the concrete coin after its expiry instant
applies the shared reversal and fails with CoinExpired. -/
theorem C5_witness :
    collectCoin stW "pu" "c1" 0 0 150
      = (expireCoinStep stW coinW 150, CollectResult.coinExpired) := by
  have h6 : calculateDistance 0 0 coinW.latitude coinW.longitude
      ≤ COLLECTION_RADIUS_METERS := by
    have h0 : calculateDistance 0 0 coinW.latitude coinW.longitude = 0 :=
      calculateDistance_self 0 0
    rw [h0]
    norm_num [COLLECTION_RADIUS_METERS]
  exact ((C5_expiry_boundary stW "pu" "c1" 0 0 150 playerW sessionW coinW
    rfl rfl rfl rfl rfl h6).1 (by decide)).1

end ClaimC5

section ClaimC4

/-- Claim C4: the collect route evaluated on a concrete in-range, unexpired
placed coin (denomination 100, sponsor profile id "sp" with auth user id
"su").  Every claimed postcondition holds — coin collected with collector
recorded, escrow released, inventory untouched, player counters and session
counters incremented, one collection record appended — except the
sponsor's donated total: updateSponsorStats filters sponsor profiles on the
user_id column, but the route passes coin.sponsorId, which is the sponsor
profile id, so no row matches and totalDonated stays 0 instead of
increasing by the denomination.  (The webhook handler converts profile id
to user id before the analogous update, showing the intended pattern.) -/
theorem C4_collect_postconditions :
    (collectCoin stW "pu" "c1" 0 0 50).2 = CollectResult.collected 100 ∧
    (getGeneratedCoin (collectCoin stW "pu" "c1" 0 0 50).1 "c1").map
        (fun c => (c.status, c.collectedBy, c.collectedAt))
      = some (CoinStatus.collected, some "pp", some 50) ∧
    (collectCoin stW "pu" "c1" 0 0 50).1.escrows.map
        (fun e => (e.coinId, e.status, e.releasedAt))
      = [("c1", EscrowStatus.released, some 50)] ∧
    invQty (collectCoin stW "pu" "c1" 0 0 50).1 "sp" 100 = 7 ∧
    invQty stW "sp" 100 = 7 ∧
    (getPlayerProfile (collectCoin stW "pu" "c1" 0 0 50).1 "pu").map
        (fun p => (p.totalCoinsCollected, p.totalDonated)) = some (1, 100) ∧
    (getSponsorProfileById (collectCoin stW "pu" "c1" 0 0 50).1 "sp").map
        (fun p => (p.totalDonated, p.totalCoinsPurchased, p.totalCoinsPlaced))
      = some (0, 0, 0) ∧
    (collectCoin stW "pu" "c1" 0 0 50).1.sessions.map
        (fun s => (s.id, s.status, s.coinsCollected, s.totalValue))
      = [("sess1", SessionStatus.active, 1, 100)] ∧
    (collectCoin stW "pu" "c1" 0 0 50).1.history.map
        (fun h => (h.playerId, h.coinId, h.sessionId, h.coinValue))
      = [("pp", "c1", "sess1", 100)] := by
  have h6 : calculateDistance 0 0 coinW.latitude coinW.longitude
      ≤ COLLECTION_RADIUS_METERS := by
    have h0 : calculateDistance 0 0 coinW.latitude coinW.longitude = 0 :=
      calculateDistance_self 0 0
    rw [h0]
    norm_num [COLLECTION_RADIUS_METERS]
  have heq := collectCoin_success stW "pu" "c1" 0 0 50 playerW sessionW coinW
    rfl rfl rfl rfl rfl h6 (by decide)
  rw [heq]
  refine ⟨rfl, ?_, ?_, ?_, ?_, ?_, ?_, ?_, ?_⟩ <;> decide

end ClaimC4

section ClaimC8

theorem invQty_endSession (st : State) (i : String) (s : SessionStatus) (now : ℤ)
    (sp : String) (w : ℤ) : invQty (endSession st i s now) sp w = invQty st sp w := rfl

theorem endSession_sessions (st : State) (i : String) (s : SessionStatus) (now : ℤ) :
    (endSession st i s now).sessions = st.sessions.map (fun x =>
      if x.id = i then { x with status := s, endedAt := some now } else x) := rfl

/-- Claim C8: ending a session with K still-placed coins marks each of them
expired, credits the inventory by exactly the per-key count of those coins
(one unit per coin at its denomination), refunds every escrow hold of those
coins (touching no other hold), and closes the session row with endedAt
stamped — completed when coinsCollected is positive, abandoned when it is
zero. -/
theorem C8_session_end_reconciliation (st : State) (uid : String) (now : ℤ)
    (profile : PlayerProfileRow) (session : SessionRow)
    (h1 : getPlayerProfile st uid = some profile)
    (h2 : getActiveSession st profile.id = some session) :
    (sessionEnd st uid now).2
        = EndResult.ended (if 0 < session.coinsCollected
            then SessionStatus.completed else SessionStatus.abandoned) ∧
    (∀ c ∈ getActiveCoinsForSession st session.id,
      { c with status := CoinStatus.expired } ∈ (sessionEnd st uid now).1.coins) ∧
    (∀ s w, invQty (sessionEnd st uid now).1 s w
      = invQty st s w
        + ((getActiveCoinsForSession st session.id).countP
            (fun c => decide (c.sponsorId = s ∧ c.coinValue = w)) : ℤ)) ∧
    (∀ e ∈ st.escrows,
      (e.coinId ∈ (getActiveCoinsForSession st session.id).map (fun c => c.id) →
        { e with status := EscrowStatus.refunded, releasedAt := some now }
          ∈ (sessionEnd st uid now).1.escrows) ∧
      (e.coinId ∉ (getActiveCoinsForSession st session.id).map (fun c => c.id) →
        e ∈ (sessionEnd st uid now).1.escrows)) ∧
    ({ session with
        status := if 0 < session.coinsCollected then SessionStatus.completed
          else SessionStatus.abandoned,
        endedAt := some now } ∈ (sessionEnd st uid now).1.sessions) := by
  simp only [sessionEnd, h1, h2]
  refine ⟨trivial, ?_, ?_, ?_, ?_⟩
  · intro c hc
    simp only [endSession_coins]
    rw [expireLoop_coins]
    have hcc : c ∈ st.coins := List.mem_of_mem_filter hc
    have hid : c.id ∈ (getActiveCoinsForSession st session.id).map
        (fun c => c.id) := List.mem_map.mpr ⟨c, hc, rfl⟩
    have hmap : (if c.id ∈ (getActiveCoinsForSession st session.id).map
        (fun c => c.id) then { c with status := CoinStatus.expired } else c)
        ∈ st.coins.map (fun x => if x.id ∈ (getActiveCoinsForSession st
          session.id).map (fun c => c.id)
          then { x with status := CoinStatus.expired } else x) :=
      List.mem_map.mpr ⟨c, hcc, rfl⟩
    rw [if_pos hid] at hmap
    exact hmap
  · intro s w
    rw [invQty_endSession, expireLoop_invQty]
  · intro e he
    constructor <;> intro hm <;> simp only [endSession_escrows] <;>
      rw [expireLoop_escrows]
    · have hmap : (if e.coinId ∈ (getActiveCoinsForSession st session.id).map (fun c => c.id) then { e with status := EscrowStatus.refunded, releasedAt := some now } else e) ∈ st.escrows.map (fun x => if x.coinId ∈ (getActiveCoinsForSession st session.id).map (fun c => c.id) then { x with status := EscrowStatus.refunded, releasedAt := some now } else x) :=
        List.mem_map.mpr ⟨e, he, rfl⟩
      rw [if_pos hm] at hmap
      exact hmap
    · have hmap : (if e.coinId ∈ (getActiveCoinsForSession st session.id).map (fun c => c.id) then { e with status := EscrowStatus.refunded, releasedAt := some now } else e) ∈ st.escrows.map (fun x => if x.coinId ∈ (getActiveCoinsForSession st session.id).map (fun c => c.id) then { x with status := EscrowStatus.refunded, releasedAt := some now } else x) :=
        List.mem_map.mpr ⟨e, he, rfl⟩
      rw [if_neg hm] at hmap
      exact hmap
  · rw [endSession_sessions, expireLoop_sessions]
    have hses : session ∈ st.sessions := List.mem_of_find?_eq_some h2
    have hmap : (if session.id = session.id then { session with status := if 0 < session.coinsCollected then SessionStatus.completed else SessionStatus.abandoned, endedAt := some now } else session) ∈ st.sessions.map (fun x => if x.id = session.id then { x with status := if 0 < session.coinsCollected then SessionStatus.completed else SessionStatus.abandoned, endedAt := some now } else x) :=
      List.mem_map.mpr ⟨session, hses, rfl⟩
    rw [if_pos rfl] at hmap
    exact hmap

/-- Claim C8 witness: ending the concrete session with one still-placed
coin and zero collections returns the abandoned status. -/
theorem C8_witness :
    (sessionEnd stW "pu" 200).2 = EndResult.ended SessionStatus.abandoned :=
  (C8_session_end_reconciliation stW "pu" 200 playerW sessionW rfl rfl).1

end ClaimC8

section ClaimC2

theorem conservedValue_createSession (st : State) (row : SessionRow)
    (s : String) (w : ℤ) :
    conservedValue (createSession st row) s w = conservedValue st s w := rfl

theorem conservedValue_endSession (st : State) (i : String) (stat : SessionStatus)
    (now : ℤ) (s : String) (w : ℤ) :
    conservedValue (endSession st i stat now) s w = conservedValue st s w := rfl

theorem filtered_ids_nodup (st : State) (q : GeneratedCoin → Bool)
    (hnd : (st.coins.map (fun c => c.id)).Nodup) :
    ((st.coins.filter q).map (fun c => c.id)).Nodup := by
  have hsub : (st.coins.filter q).Sublist st.coins := List.filter_sublist st.coins
  have hsub2 := hsub.map (fun c => c.id)
  exact hnd.sublist hsub2

/-- Claim C2: value conservation.  For every sponsor and denomination, the
stored inventory plus the number of placed coins plus the number of
collected coins is left unchanged by session-start placement (with any
drawn units), by the collect route (all of its branches, collection and
lazy expiry included), by a sweeper tick, and by session end; only the
purchase credit of GET /api/sponsor/payment-success increases the sum, by
exactly the credited quantity at the credited key.  Coin ids are assumed
unique, as the database primary key guarantees. -/
theorem C2_value_conservation (st : State) (s : String) (w : ℤ)
    (hnd : (st.coins.map (fun c => c.id)).Nodup) :
    (∀ (uid : String) (lat lon : ℝ) (units : List DrawUnit) (sid : String)
      (cf : ℕ → String) (rf : ℕ → ℝ × ℝ) (now : ℤ),
      conservedValue (sessionStartPlace st uid lat lon units sid cf rf now).1 s w
        = conservedValue st s w) ∧
    (∀ (uid cid : String) (lat lon : ℝ) (now : ℤ),
      conservedValue (collectCoin st uid cid lat lon now).1 s w
        = conservedValue st s w) ∧
    (∀ now : ℤ, conservedValue (runExpirationCheck st now) s w
      = conservedValue st s w) ∧
    (∀ (uid : String) (now : ℤ),
      conservedValue (sessionEnd st uid now).1 s w = conservedValue st s w) ∧
    (∀ (uid : String) (q v : ℤ) (p : SponsorProfileRow),
      getSponsorProfile st uid = some p →
      conservedValue (paymentSuccess st uid q v).1 s w
        = conservedValue st s w + (if p.id = s ∧ v = w then q else 0)) ∧
    (∀ (uid : String) (q v : ℤ),
      getSponsorProfile st uid = none → (paymentSuccess st uid q v).1 = st) := by
  refine ⟨?_, ?_, ?_, ?_, ?_, ?_⟩
  · intro uid lat lon units sid cf rf now
    rcases hp : getPlayerProfile st uid with _ | p
    · simp only [sessionStartPlace, hp]
    · rcases hs : getActiveSession st p.id with _ | s2
      · by_cases hu : units.isEmpty
        · simp only [sessionStartPlace, hp, hs, if_pos hu]
        · simp only [sessionStartPlace, hp, hs, if_neg hu]
          rw [placeLoop_conserved, conservedValue_createSession]
      · simp only [sessionStartPlace, hp, hs]
  · intro uid cid lat lon now
    rcases hp : getPlayerProfile st uid with _ | p
    · simp only [collectCoin, hp]
    · rcases hs : getActiveSession st p.id with _ | sess
      · simp only [collectCoin, hp, hs]
      · rcases hc : getGeneratedCoin st cid with _ | coin
        · simp only [collectCoin, hp, hs, hc]
        · simp only [collectCoin, hp, hs, hc]
          have hmem : coin ∈ st.coins := List.mem_of_find?_eq_some hc
          split_ifs with hstat hsess hdist hexp
          · rfl
          · rfl
          · rfl
          · exact expireCoinStep_conserved st coin now s w hnd hmem
              (not_ne_iff.mp hstat)
          · have hcv : conservedValue (addCollectionHistory (updateSessionCounts (updateSponsorStats (updatePlayerStats (releaseEscrow (updateCoinStatus st coin.id .collected (some p.id) now) coin.id now) uid 1 coin.coinValue) coin.sponsorId 0 coin.coinValue) sess.id (sess.coinsCollected + 1) (sess.totalValue + coin.coinValue)) ⟨p.id, coin.id, sess.id, coin.coinValue, now⟩) s w = conservedValue (updateCoinStatus st coin.id .collected (some p.id) now) s w := rfl
            rw [hcv]
            exact updateCoinStatus_collected_conserved st coin p.id now s w hnd
              hmem (not_ne_iff.mp hstat)
  · intro now
    unfold runExpirationCheck
    refine expireLoop_conserved now s w (getExpiredCoins st now) st hnd ?_ ?_
    · exact filtered_ids_nodup st _ hnd
    · intro c hc
      unfold getExpiredCoins at hc
      have h2 := List.mem_filter.mp hc
      refine ⟨h2.1, ?_⟩
      have := h2.2
      simp only [decide_eq_true_eq] at this
      exact this.1
  · intro uid now
    rcases hp : getPlayerProfile st uid with _ | p
    · simp only [sessionEnd, hp]
    · rcases hs : getActiveSession st p.id with _ | sess
      · simp only [sessionEnd, hp, hs]
      · simp only [sessionEnd, hp, hs]
        rw [conservedValue_endSession]
        refine expireLoop_conserved now s w (getActiveCoinsForSession st sess.id)
          st hnd ?_ ?_
        · exact filtered_ids_nodup st _ hnd
        · intro c hc
          unfold getActiveCoinsForSession at hc
          have h2 := List.mem_filter.mp hc
          refine ⟨h2.1, ?_⟩
          have := h2.2
          simp only [decide_eq_true_eq] at this
          exact this.2
  · intro uid q v p hp
    simp only [paymentSuccess, hp]
    unfold conservedValue countCoins
    rw [invQty_addToInventory]
    simp only [addToInventory_coins]
    ring
  · intro uid q v hp
    simp only [paymentSuccess, hp]

/-- Claim C2 witness: a sweeper tick on the concrete mid-session state
leaves the conserved sum for (sponsor "sp", denomination 100) unchanged. -/
theorem C2_witness :
    conservedValue (runExpirationCheck stW 200) "sp" 100
      = conservedValue stW "sp" 100 :=
  (C2_value_conservation stW "sp" 100 (by decide)).2.2.1 200

end ClaimC2
